import Mathlib

/-!
Verification of the sersync-plus real-time change pipeline against its
natural-language specification.  The definitions below are shallow
embeddings of the Python source under src/sersync/: pure functions become
Lean functions, filesystem state becomes an explicit predicate
(String → Bool), and subprocess execution becomes an explicit
outcome parameter.  Each claim of the specification is settled by one
theorem about these definitions.
-/

set_option maxRecDepth 10000

namespace Sersync

/-! ## Shared string helpers (models of the Python string primitives used
by the source: startswith, strip, split, join, replace, `in`). -/

/-- Model of Python `s.startswith(pre)`. -/
def pyStartswith (s pre : String) : Bool :=
  pre.data.isPrefixOf s.data

/-- Boolean substring test on character lists: `pat` occurs contiguously in
the list. -/
def listIsInfix (pat : List Char) : List Char → Bool
  | [] => pat.isEmpty
  | c :: cs => pat.isPrefixOf (c :: cs) || listIsInfix pat cs

/-- Model of Python `pat in s` (substring containment). -/
def containsSubstr (s pat : String) : Bool :=
  listIsInfix pat.data s.data

/-- Truthiness of a Python optional string (`if s:`): present and nonempty. -/
def optTruthyStr : Option String → Bool
  | some s => !s.isEmpty
  | none => false

/-- Truthiness of a Python optional number (`if x:`): present and nonzero. -/
def optTruthyInt : Option Int → Bool
  | some t => t != 0
  | none => false

/-! ## Event queue (src/sersync/core/event_queue.py) -/

/-- An event dictionary as the queue holds it: the `type` and `path`
fields, plus the optional `merged_count` key that `_merge_events` adds. -/
structure Event where
  type : String
  path : String
  merged_count : Option Nat := none
deriving Repr, DecidableEq, Inhabited

/-- The `priority_order` dictionary of `EventQueue._merge_events`;
`.get(type, 0)` defaults unknown types to 0. -/
def priority_order (t : String) : Nat :=
  if t = "DELETE_FILE" then 4
  else if t = "DELETE_FOLDER" then 4
  else if t = "MOVE" then 3
  else if t = "CLOSE_WRITE" then 2
  else if t = "MODIFY" then 2
  else if t = "CREATE_FILE" then 1
  else if t = "CREATE_FOLDER" then 1
  else if t = "ATTRIB" then 0
  else 0

/-- Head of Python `sorted(events, key=priority, reverse=True)`: the sort is
stable, so the head is the earliest event whose priority is maximal.  The
fold keeps the current candidate unless a strictly higher priority appears. -/
def first_max : Event → List Event → Event
  | e, [] => e
  | e, x :: xs =>
    if priority_order e.type < priority_order x.type then first_max x xs
    else first_max e xs

/-- `EventQueue._merge_events`: a single event is returned unchanged; a
larger group yields its earliest highest-priority event with the
`merged_count` key set to the group size. -/
def merge_events : List Event → Event
  | [] => default
  | [e] => e
  | e :: rest => { first_max e rest with merged_count := some (e :: rest).length }

/-- The set `directory_deletes` collected at the start of `EventQueue.flush`:
all pending paths holding at least one DELETE_FOLDER event. -/
def directory_deletes (pending : List (String × List Event)) : List String :=
  (pending.filter (fun g => g.2.any (fun e => e.type == "DELETE_FOLDER"))).map (fun g => g.1)

/-- `EventQueue._is_filtered_by_parent_delete`.  A DELETE_FOLDER event is
never filtered; otherwise the event is filtered when some pending
directory-delete path is a strict ancestor of, or equal to, its path.
When the passed set is empty the Python code rescans `pending_events`,
which is what the `if dds.isEmpty` branch models. -/
def is_filtered_by_parent_delete (pending : List (String × List Event))
    (file_path : String) (ev : Event) (dds : List String) : Bool :=
  if ev.type == "DELETE_FOLDER" then false
  else
    let deletes := if dds.isEmpty then directory_deletes pending else dds
    deletes.any (fun d => pyStartswith file_path (d ++ "/") || file_path == d)

/-- `EventQueue.flush`: merge each non-empty pending group, drop the merged
events covered by a pending directory delete, publish the rest in order. -/
def flush (pending : List (String × List Event)) : List Event :=
  let dds := directory_deletes pending
  pending.filterMap (fun g =>
    if g.2.isEmpty then none
    else
      let merged := merge_events g.2
      if is_filtered_by_parent_delete pending g.1 merged dds then none
      else some merged)

/-! ### Lemmas about the merge -/

theorem first_max_ge (e : Event) (xs : List Event) :
    ∀ y ∈ e :: xs, priority_order y.type ≤ priority_order (first_max e xs).type := by
  induction xs generalizing e with
  | nil =>
    intro y hy
    simp only [List.mem_singleton] at hy
    simp [hy, first_max]
  | cons x xs ih =>
    intro y hy
    rcases List.mem_cons.mp hy with h | h
    · subst h
      by_cases hc : priority_order y.type < priority_order x.type
      · simp only [first_max, if_pos hc]
        exact le_trans (le_of_lt hc) (ih x x (List.mem_cons_self _ _))
      · simp only [first_max, if_neg hc]
        exact ih y y (List.mem_cons_self _ _)
    · by_cases hc : priority_order e.type < priority_order x.type
      · simp only [first_max, if_pos hc]
        rcases List.mem_cons.mp h with h2 | h2
        · subst h2; exact ih y y (List.mem_cons_self _ _)
        · exact ih x y (List.mem_cons_of_mem _ h2)
      · simp only [first_max, if_neg hc]
        rcases List.mem_cons.mp h with h2 | h2
        · subst h2
          exact le_trans (le_of_not_lt hc) (ih e e (List.mem_cons_self _ _))
        · exact ih e y (List.mem_cons_of_mem _ h2)

theorem first_max_decomp (e : Event) (xs : List Event) :
    ∃ l₁ l₂, e :: xs = l₁ ++ first_max e xs :: l₂ ∧
      ∀ y ∈ l₁, priority_order y.type < priority_order (first_max e xs).type := by
  induction xs generalizing e with
  | nil =>
    exact ⟨[], [], by simp [first_max], by simp⟩
  | cons x xs ih =>
    by_cases hc : priority_order e.type < priority_order x.type
    · obtain ⟨l₁, l₂, hsplit, hlt⟩ := ih x
      refine ⟨e :: l₁, l₂, ?_, ?_⟩
      · simp only [first_max]
        rw [if_pos hc, List.cons_append, ← hsplit]
      · intro y hy
        simp only [first_max, if_pos hc]
        rcases List.mem_cons.mp hy with h | h
        · subst h
          exact lt_of_lt_of_le hc (first_max_ge x xs x (List.mem_cons_self _ _))
        · exact hlt y h
    · obtain ⟨l₁, l₂, hsplit, hlt⟩ := ih e
      rcases l₁ with _ | ⟨a, l₁⟩
      · simp only [List.nil_append] at hsplit
        injection hsplit with h1 h2
        refine ⟨[], x :: xs, ?_, by simp⟩
        simp only [first_max]
        rw [if_neg hc, List.nil_append, ← h1]
      · simp only [List.cons_append] at hsplit
        injection hsplit with h1 h2
        subst h1
        refine ⟨e :: x :: l₁, l₂, ?_, ?_⟩
        · simp only [first_max]
          rw [if_neg hc, List.cons_append, List.cons_append, ← h2]
        · intro y hy
          simp only [first_max, if_neg hc]
          have he : priority_order e.type < priority_order (first_max e xs).type :=
            hlt e (List.mem_cons_self _ _)
          rcases List.mem_cons.mp hy with h | h
          · subst h; exact he
          · rcases List.mem_cons.mp h with h2 | h2
            · subst h2
              exact lt_of_le_of_lt (le_of_not_lt hc) he
            · exact hlt y (List.mem_cons_of_mem _ h2)

theorem first_max_mem (e : Event) (xs : List Event) : first_max e xs ∈ e :: xs := by
  obtain ⟨l₁, l₂, hsplit, _⟩ := first_max_decomp e xs
  rw [hsplit]
  exact List.mem_append.mpr (Or.inr (List.mem_cons_self _ _))

theorem merge_events_path (evs : List Event) (p : String) (hne : evs ≠ [])
    (hp : ∀ e ∈ evs, e.path = p) : (merge_events evs).path = p := by
  match evs with
  | [] => exact absurd rfl hne
  | [e] => exact hp e (List.mem_singleton.mpr rfl)
  | e :: r :: rs =>
    show (first_max e (r :: rs)).path = p
    exact hp _ (first_max_mem e (r :: rs))

/-- The spec-side characterization of a path holding a pending DeleteDir
event in the current window. -/
def has_pending_delete_folder (pending : List (String × List Event)) (d : String) : Prop :=
  ∃ g ∈ pending, g.1 = d ∧ ∃ e ∈ g.2, e.type = "DELETE_FOLDER"

/-- The spec-side characterization of the merged events the flush
suppresses: the merged kind is not DeleteDir and the path equals, or is a
strict descendant of, some path holding a pending DeleteDir event. -/
def suppressed_spec (pending : List (String × List Event)) (p : String) (m : Event) : Prop :=
  m.type ≠ "DELETE_FOLDER" ∧
    ∃ d, has_pending_delete_folder pending d ∧ (p = d ∨ pyStartswith p (d ++ "/") = true)

theorem mem_directory_deletes (pending : List (String × List Event)) (d : String) :
    d ∈ directory_deletes pending ↔ has_pending_delete_folder pending d := by
  simp only [directory_deletes, List.mem_map, List.mem_filter, List.any_eq_true,
    beq_iff_eq, has_pending_delete_folder]
  constructor
  · rintro ⟨g, ⟨hg, e, he, ht⟩, hd⟩
    exact ⟨g, hg, hd, e, he, ht⟩
  · rintro ⟨g, hg, hd, e, he, ht⟩
    exact ⟨g, ⟨hg, e, he, ht⟩, hd⟩

theorem is_filtered_iff (pending : List (String × List Event)) (p : String) (m : Event) :
    is_filtered_by_parent_delete pending p m (directory_deletes pending) = true ↔
      suppressed_spec pending p m := by
  simp only [is_filtered_by_parent_delete, suppressed_spec]
  by_cases ht : m.type = "DELETE_FOLDER"
  · simp [ht]
  · have hbeq : (m.type == "DELETE_FOLDER") = false := beq_eq_false_iff_ne.mpr ht
    simp only [hbeq, Bool.false_eq_true, if_false, ite_self, List.any_eq_true,
      Bool.or_eq_true, beq_iff_eq]
    constructor
    · rintro ⟨d, hd, hcase⟩
      refine ⟨ht, d, (mem_directory_deletes pending d).mp hd, ?_⟩
      rcases hcase with h | h
      · exact Or.inr h
      · exact Or.inl h
    · rintro ⟨-, d, hd, hcase⟩
      refine ⟨d, (mem_directory_deletes pending d).mpr hd, ?_⟩
      rcases hcase with h | h
      · exact Or.inr h
      · exact Or.inl h

/-- C1 (amended): a non-empty per-path group's merged event is published by
the flush exactly when it is not suppressed, where suppression requires a
non-DeleteDir merged kind and a pending DeleteDir at the path itself or at
a strict ancestor. -/
theorem flush_publishes_iff (pending : List (String × List Event))
    (hpaths : ∀ g ∈ pending, ∀ e ∈ g.2, e.path = g.1) :
    ∀ g ∈ pending, g.2 ≠ [] →
      (merge_events g.2 ∈ flush pending ↔ ¬ suppressed_spec pending g.1 (merge_events g.2)) := by
  intro g hg hne
  simp only [flush, List.mem_filterMap]
  constructor
  · rintro ⟨g2, hg2, hf⟩
    by_cases hemp : g2.2.isEmpty
    · simp [hemp] at hf
    · simp only [hemp, Bool.false_eq_true, if_false] at hf
      by_cases hfil : is_filtered_by_parent_delete pending g2.1 (merge_events g2.2)
          (directory_deletes pending) = true
      · simp [hfil] at hf
      · simp only [hfil, Bool.false_eq_true, if_false, Option.some.injEq] at hf
        have hpath2 : (merge_events g2.2).path = g2.1 :=
          merge_events_path g2.2 g2.1 (by simpa [List.isEmpty_iff] using hemp) (hpaths g2 hg2)
        have hpath : (merge_events g.2).path = g.1 :=
          merge_events_path g.2 g.1 hne (hpaths g hg)
        have hkey : g2.1 = g.1 := by rw [← hpath2, hf, hpath]
        rw [hf, hkey] at hfil
        exact fun hs => hfil ((is_filtered_iff pending g.1 (merge_events g.2)).mpr hs)
  · intro hns
    refine ⟨g, hg, ?_⟩
    have hemp : g.2.isEmpty = false := by
      cases h : g.2.isEmpty
      · rfl
      · exact absurd (List.isEmpty_iff.mp h) hne
    have hfil : is_filtered_by_parent_delete pending g.1 (merge_events g.2)
        (directory_deletes pending) = false := by
      cases h : is_filtered_by_parent_delete pending g.1 (merge_events g.2)
          (directory_deletes pending)
      · rfl
      · exact absurd ((is_filtered_iff pending g.1 (merge_events g.2)).mp h) hns
    simp [hemp, hfil]

/-- C1 counterexample: a window holding both a DeleteFile and a DeleteDir
event at the same path merges to DeleteFile (earliest of the tied maximal
priorities), and the flush suppresses it — the published output is empty —
although the path has no strict ancestor among the DeleteDir paths. -/
theorem flush_drops_tied_delete_file :
    flush [("/w/d", [⟨"DELETE_FILE", "/w/d", none⟩, ⟨"DELETE_FOLDER", "/w/d", none⟩])] = []
    ∧ directory_deletes
        [("/w/d", [⟨"DELETE_FILE", "/w/d", none⟩, ⟨"DELETE_FOLDER", "/w/d", none⟩])] = ["/w/d"]
    ∧ (merge_events [⟨"DELETE_FILE", "/w/d", none⟩, ⟨"DELETE_FOLDER", "/w/d", none⟩]).type
        = "DELETE_FILE"
    ∧ pyStartswith "/w/d" ("/w/d" ++ "/") = false := by
  decide

/-- C1 witness: the amended theorem applied to a concrete window in which a
DeleteDir at /w suppresses the Modify event pending at /w/x. -/
theorem flush_publishes_iff_witness :
    merge_events [⟨"MODIFY", "/w/x", none⟩] ∈
        flush [("/w/x", [⟨"MODIFY", "/w/x", none⟩]), ("/w", [⟨"DELETE_FOLDER", "/w", none⟩])] ↔
      ¬ suppressed_spec
          [("/w/x", [⟨"MODIFY", "/w/x", none⟩]), ("/w", [⟨"DELETE_FOLDER", "/w", none⟩])]
          "/w/x" (merge_events [⟨"MODIFY", "/w/x", none⟩]) :=
  flush_publishes_iff
    [("/w/x", [⟨"MODIFY", "/w/x", none⟩]), ("/w", [⟨"DELETE_FOLDER", "/w", none⟩])]
    (by decide) ("/w/x", [⟨"MODIFY", "/w/x", none⟩]) (by decide) (by decide)

/-- C2 counterexample: a single-event group is returned unchanged by the
merge, so its mergedCount annotation is absent rather than equal to 1. -/
theorem merge_events_singleton_unannotated :
    merge_events [⟨"CREATE_FILE", "/w/a.txt", none⟩] = ⟨"CREATE_FILE", "/w/a.txt", none⟩
    ∧ (merge_events [⟨"CREATE_FILE", "/w/a.txt", none⟩]).merged_count ≠ some 1 := by
  decide

/-- C2 (amended): a singleton group passes through unchanged (without a
mergedCount annotation); a group of two or more events merges to its
earliest highest-priority event under the order
Delete > Move > CloseWrite = Modify > Create > Attrib, annotated with
mergedCount equal to the group size. -/
theorem merge_events_spec :
    (∀ e : Event, merge_events [e] = e) ∧
    ∀ (e : Event) (rest : List Event), rest ≠ [] →
      ∃ l₁ m l₂, e :: rest = l₁ ++ m :: l₂
        ∧ (∀ y ∈ l₁, priority_order y.type < priority_order m.type)
        ∧ (∀ y ∈ e :: rest, priority_order y.type ≤ priority_order m.type)
        ∧ merge_events (e :: rest) = { m with merged_count := some (e :: rest).length } := by
  constructor
  · intro e; rfl
  · intro e rest hne
    match rest, hne with
    | r :: rs, _ =>
      obtain ⟨l₁, l₂, hsplit, hlt⟩ := first_max_decomp e (r :: rs)
      exact ⟨l₁, first_max e (r :: rs), l₂, hsplit, hlt, first_max_ge e (r :: rs), rfl⟩

/-- C2 witness: the amended merge specification applied to a concrete
two-event group (Modify then DeleteFile). -/
theorem merge_events_spec_witness :
    ∃ l₁ m l₂,
      ([⟨"MODIFY", "/w/a", none⟩, ⟨"DELETE_FILE", "/w/a", none⟩] : List Event) = l₁ ++ m :: l₂
      ∧ (∀ y ∈ l₁, priority_order y.type < priority_order m.type)
      ∧ (∀ y ∈ ([⟨"MODIFY", "/w/a", none⟩, ⟨"DELETE_FILE", "/w/a", none⟩] : List Event),
          priority_order y.type ≤ priority_order m.type)
      ∧ merge_events [⟨"MODIFY", "/w/a", none⟩, ⟨"DELETE_FILE", "/w/a", none⟩]
          = { m with merged_count := some 2 } :=
  merge_events_spec.2 ⟨"MODIFY", "/w/a", none⟩ [⟨"DELETE_FILE", "/w/a", none⟩] (by decide)

/-! ## Dispatcher (src/sersync/core/sync_engine.py)

The filesystem at dispatch time is an explicit snapshot `fs : String → Bool`
(whether a path exists), and a spawned process's fate is an explicit
`ProcResult`.  Paths are taken as already in `pathlib` normal form. -/

/-- Drop trailing slash characters (part of `pathlib` normalization). -/
def rstripSlashChars (cs : List Char) : List Char :=
  (cs.reverse.dropWhile (fun c => c == '/')).reverse

/-- Model of `str(pathlib.Path(p))` for ordinary paths: trailing slashes
are dropped; the root stays "/" and an empty path is ".". -/
def normPath (p : String) : String :=
  let cs := rstripSlashChars p.data
  if cs.isEmpty then (if p.data.any (fun c => c == '/') then "/" else ".")
  else String.mk cs

/-- Model of `pathlib.Path(p).parent`: drop the last path component. -/
def parent_dir (p : String) : String :=
  let cs := rstripSlashChars p.data
  if cs.isEmpty then (if p.data.any (fun c => c == '/') then "/" else ".")
  else
    let pref := rstripSlashChars ((cs.reverse.dropWhile (fun c => !(c == '/'))).reverse)
    if pref.isEmpty then (if cs.any (fun c => c == '/') then "/" else ".")
    else String.mk pref

/-- Model of `pathlib.Path(p).name`: the last path component. -/
def basename (p : String) : String :=
  let cs := rstripSlashChars p.data
  String.mk ((cs.reverse.takeWhile (fun c => !(c == '/'))).reverse)

/-- Model of Python `s.split()` (split on whitespace, dropping empties),
used for `common_params`. -/
def pySplitWhitespace (s : String) : List String :=
  (s.split Char.isWhitespace).filter (fun t => !t.isEmpty)

/-- Model of `pathlib.Path(source).relative_to(watch)` on normalized
paths: `none` models the `ValueError` branch. -/
def relative_to? (source watch : String) : Option String :=
  let s := normPath source
  let w := normPath watch
  if s == w then some "."
  else
    let wslash := if w == "/" then "/" else w ++ "/"
    if pyStartswith s wslash then some (s.drop wslash.length) else none

/-- The fields of `RsyncConfig` (src/sersync/config/models.py) the
dispatcher reads. -/
structure RsyncConfig where
  common_params : String := "-artuz"
  auth_enabled : Bool := false
  auth_users : Option String := none
  auth_passwordfile : Option String := none
  custom_port_enabled : Bool := false
  custom_port : Nat := 874
  timeout_enabled : Bool := false
  timeout : Nat := 100
  ssh_enabled : Bool := false
deriving Repr, DecidableEq, Inhabited

/-- The fields of `RemoteConfig` the dispatcher reads. -/
structure RemoteConfig where
  ip : String
  name : String
deriving Repr, DecidableEq, Inhabited

/-- `SyncEngine._build_rsync_cmd`: flag assembly, the delete rewrite to the
parent directory with a trailing slash, and destination construction. -/
def build_rsync_cmd (fs : String → Bool) (cfg : RsyncConfig) (watch_path : String)
    (remote : RemoteConfig) (source0 : String) (event_type : String) : List String :=
  let source :=
    if pyStartswith event_type "DELETE" && !(fs source0) && fs (parent_dir source0)
    then parent_dir source0 ++ "/" else source0
  let base := ("rsync" :: pySplitWhitespace cfg.common_params)
    ++ (if pyStartswith event_type "DELETE" then ["--delete"] else [])
    ++ (if cfg.auth_enabled && optTruthyStr cfg.auth_passwordfile
        then ["--password-file=" ++ cfg.auth_passwordfile.getD ""] else [])
    ++ (if cfg.timeout_enabled then ["--timeout=" ++ toString cfg.timeout] else [])
    ++ (if cfg.custom_port_enabled then ["--port=" ++ toString cfg.custom_port] else [])
    ++ (if cfg.ssh_enabled then ["-e", "ssh"] else [])
  let rel := match relative_to? source watch_path with
    | some r => r
    | none => basename source
  let dest :=
    if cfg.ssh_enabled then remote.ip ++ ":" ++ remote.name ++ "/" ++ rel
    else
      (match cfg.auth_users with
        | some u => if u.isEmpty then "" else u ++ "@"
        | none => "") ++ remote.ip ++ "::" ++ remote.name ++ "/" ++ rel
  base ++ [source, dest]

/-- The fate of the spawned rsync process: normal completion with an exit
code and captured output, a timeout, or a spawn exception. -/
inductive ProcResult where
  | completed (returncode : Int) (stdout stderr : String)
  | timeout
  | exn (msg : String)
deriving Repr, DecidableEq

/-- The exit-status policy of `SyncEngine._rsync_to_remote`: success is
exit 0, except that a Delete event with exit 23 and a stderr containing
"No such file or directory" is coerced to success. -/
def determine_success (event_type : String) (returncode : Int) (stderr : String) : Bool :=
  let success := returncode == 0
  if !success && pyStartswith event_type "DELETE" && returncode == 23
      && containsSubstr stderr "No such file or directory"
  then true else success

/-- The per-invocation result dictionary of `_rsync_to_remote`. -/
structure SyncOutcome where
  success : Bool
  returncode : Option Int
  output : String
  error : String
deriving Repr, DecidableEq

/-- The early-return value of `_rsync_to_remote` when a Delete source and
its parent are both gone: success with exit 0 and no spawned process. -/
def skip_outcome : SyncOutcome :=
  ⟨true, some 0, "Source already deleted, sync skipped", ""⟩

/-- The dispatch decision of `_rsync_to_remote`: `none` models the early
success return (no rsync spawned), `some cmd` the spawned invocation. -/
def rsync_dispatch_plan (fs : String → Bool) (cfg : RsyncConfig) (watch_path : String)
    (remote : RemoteConfig) (source : String) (event_type : String) : Option (List String) :=
  if pyStartswith event_type "DELETE" && !(fs source) && !(fs (parent_dir source))
  then none
  else some (build_rsync_cmd fs cfg watch_path remote source event_type)

/-- `SyncEngine._rsync_to_remote` as a function of the filesystem snapshot
and the process fate. -/
def rsync_to_remote (fs : String → Bool) (cfg : RsyncConfig) (watch_path : String)
    (remote : RemoteConfig) (source : String) (event_type : String)
    (pr : ProcResult) : SyncOutcome :=
  match rsync_dispatch_plan fs cfg watch_path remote source event_type with
  | none => skip_outcome
  | some _ =>
    match pr with
    | .completed rc out err => ⟨determine_success event_type rc err, some rc, out, err⟩
    | .timeout => ⟨false, none, "", "Timeout"⟩
    | .exn msg => ⟨false, none, "", msg⟩

/-- The aggregation of `SyncEngine.sync_file`:
`all_success = all(r.success for r in results)`. -/
def sync_file_all_success (results : List SyncOutcome) : Bool :=
  results.all (fun r => r.success)

theorem determine_success_iff (et : String) (rc : Int) (err : String) :
    determine_success et rc err = true ↔
      rc = 0 ∨ (pyStartswith et "DELETE" = true ∧ rc = 23 ∧
        containsSubstr err "No such file or directory" = true) := by
  unfold determine_success
  by_cases h0 : rc = 0
  · subst h0
    simp
  · have hb : (rc == 0) = false := beq_eq_false_iff_ne.mpr h0
    simp only [hb, Bool.not_false, Bool.true_and]
    by_cases h23 : rc = 23
    · subst h23
      cases hd : pyStartswith et "DELETE" <;>
        cases hc : containsSubstr err "No such file or directory" <;>
          simp [hd, hc, h0]
    · have hb23 : (rc == 23) = false := beq_eq_false_iff_ne.mpr h23
      simp [hb23, h0, h23]

theorem dropLast_getLast_pair {α : Type} (l : List α) (a b : α) :
    (l ++ [a, b]).dropLast.getLast? = some a := by
  have h : l ++ [a, b] = (l ++ [a]) ++ [b] := by simp
  rw [h, List.dropLast_concat, List.getLast?_concat]

/-- C3: for a Delete event whose source is gone, if the parent directory
still exists the spawned invocation carries `--delete` and its source
argument (second to last) is the parent directory with a trailing slash;
if the parent is gone too, the dispatcher returns the success outcome
(exit 0) without spawning rsync. -/
theorem delete_dispatch_spec (fs : String → Bool) (cfg : RsyncConfig)
    (watch_path : String) (remote : RemoteConfig) (source et : String)
    (hdel : pyStartswith et "DELETE" = true) (hgone : fs source = false) :
    (fs (parent_dir source) = true →
      rsync_dispatch_plan fs cfg watch_path remote source et
        = some (build_rsync_cmd fs cfg watch_path remote source et)
      ∧ "--delete" ∈ build_rsync_cmd fs cfg watch_path remote source et
      ∧ (build_rsync_cmd fs cfg watch_path remote source et).dropLast.getLast?
          = some (parent_dir source ++ "/"))
    ∧ (fs (parent_dir source) = false →
      (∀ pr, rsync_to_remote fs cfg watch_path remote source et pr = skip_outcome)
      ∧ skip_outcome.success = true ∧ skip_outcome.returncode = some 0) := by
  constructor
  · intro hpar
    refine ⟨?_, ?_, ?_⟩
    · unfold rsync_dispatch_plan
      rw [hdel, hgone, hpar]
      simp
    · unfold build_rsync_cmd
      rw [hdel]
      simp
    · unfold build_rsync_cmd
      rw [hdel, hgone, hpar]
      simp only [Bool.not_false, Bool.and_true, Bool.true_and, if_true]
      exact dropLast_getLast_pair _ _ _
  · intro hpar
    refine ⟨?_, rfl, rfl⟩
    intro pr
    unfold rsync_to_remote rsync_dispatch_plan
    rw [hdel, hgone, hpar]
    simp

/-- C3 witness: the dispatch facts at a concrete snapshot in which only the
watched root /w exists and /w/a.txt was deleted. -/
theorem delete_dispatch_spec_witness :
    ((fun p => p == "/w") (parent_dir "/w/a.txt") = true →
      rsync_dispatch_plan (fun p => p == "/w") {} "/w" ⟨"10.0.0.2", "data"⟩ "/w/a.txt" "DELETE_FILE"
        = some (build_rsync_cmd (fun p => p == "/w") {} "/w" ⟨"10.0.0.2", "data"⟩ "/w/a.txt" "DELETE_FILE")
      ∧ "--delete" ∈ build_rsync_cmd (fun p => p == "/w") {} "/w" ⟨"10.0.0.2", "data"⟩ "/w/a.txt" "DELETE_FILE"
      ∧ (build_rsync_cmd (fun p => p == "/w") {} "/w" ⟨"10.0.0.2", "data"⟩ "/w/a.txt" "DELETE_FILE").dropLast.getLast?
          = some (parent_dir "/w/a.txt" ++ "/"))
    ∧ ((fun p => p == "/w") (parent_dir "/w/a.txt") = false →
      (∀ pr, rsync_to_remote (fun p => p == "/w") {} "/w" ⟨"10.0.0.2", "data"⟩ "/w/a.txt" "DELETE_FILE" pr
          = skip_outcome)
      ∧ skip_outcome.success = true ∧ skip_outcome.returncode = some 0) :=
  delete_dispatch_spec (fun p => p == "/w") {} "/w" ⟨"10.0.0.2", "data"⟩ "/w/a.txt" "DELETE_FILE"
    (by decide) (by decide)

/-- C4: a spawned invocation's outcome is success exactly when the process
completed with exit 0, or with exit 23 on a Delete event while stderr
contains "No such file or directory"; timeouts and spawn exceptions are
failures; and the aggregate allSuccess is the conjunction of the
per-remote success flags. -/
theorem rsync_exit_policy :
    (∀ (fs : String → Bool) (cfg : RsyncConfig) (watch_path : String)
        (remote : RemoteConfig) (source et : String) (pr : ProcResult) (cmd : List String),
      rsync_dispatch_plan fs cfg watch_path remote source et = some cmd →
      ((rsync_to_remote fs cfg watch_path remote source et pr).success = true ↔
        ∃ rc out err, pr = ProcResult.completed rc out err ∧
          (rc = 0 ∨ (pyStartswith et "DELETE" = true ∧ rc = 23 ∧
            containsSubstr err "No such file or directory" = true))))
    ∧ (∀ results : List SyncOutcome,
        sync_file_all_success results = true ↔ ∀ r ∈ results, r.success = true) := by
  constructor
  · intro fs cfg watch_path remote source et pr cmd hplan
    unfold rsync_to_remote
    rw [hplan]
    cases pr with
    | completed rc out err =>
      simp only [ProcResult.completed.injEq]
      constructor
      · intro h
        exact ⟨rc, out, err, ⟨rfl, rfl, rfl⟩, (determine_success_iff et rc err).mp h⟩
      · rintro ⟨rc2, out2, err2, ⟨h1, h2, h3⟩, hcase⟩
        subst h1; subst h2; subst h3
        exact (determine_success_iff et rc err).mpr hcase
    | timeout => simp
    | exn msg => simp
  · intro results
    simp [sync_file_all_success, List.all_eq_true]

/-- C4 witness: the policy applied to a Delete invocation that exits 23
with a "No such file or directory" stderr, and a singleton aggregate. -/
theorem rsync_exit_policy_witness :
    ((rsync_to_remote (fun _ => true) {} "/w" ⟨"10.0.0.2", "data"⟩ "/w/a.txt" "DELETE_FILE"
        (ProcResult.completed 23 "" "rsync: link_stat failed: No such file or directory (2)")).success
        = true ↔
      ∃ rc out err,
        ProcResult.completed 23 "" "rsync: link_stat failed: No such file or directory (2)"
          = ProcResult.completed rc out err ∧
        (rc = 0 ∨ (pyStartswith "DELETE_FILE" "DELETE" = true ∧ rc = 23 ∧
          containsSubstr err "No such file or directory" = true)))
    ∧ (sync_file_all_success [skip_outcome] = true ↔ ∀ r ∈ [skip_outcome], r.success = true) :=
  ⟨rsync_exit_policy.1 (fun _ => true) {} "/w" ⟨"10.0.0.2", "data"⟩ "/w/a.txt" "DELETE_FILE"
      (ProcResult.completed 23 "" "rsync: link_stat failed: No such file or directory (2)")
      (build_rsync_cmd (fun _ => true) {} "/w" ⟨"10.0.0.2", "data"⟩ "/w/a.txt" "DELETE_FILE") rfl,
    rsync_exit_policy.2 [skip_outcome]⟩

/-! ## Metadata store validation (src/sersync/bidirectional/metadata_manager.py)

Paths are taken already resolved (`Path(...).resolve()` is filesystem
resolution; the embedding works on the resolved strings). -/

/-- `MetadataManager._is_path_inside_watch`:
`str(resolve(path)).startswith(str(resolve(watch_path)))`. -/
def is_path_inside_watch (watch_path path : String) : Bool :=
  pyStartswith path watch_path

/-- The validation loop of `MetadataManager._generate_safe_paths`: walk the
user overrides and raise (here: `Except.error` with the offending key) on
the first truthy override path that lies inside the watched root. -/
def generate_safe_paths_check (watch_path : String) :
    List (String × Option String) → Except String Unit
  | [] => .ok ()
  | (key, v) :: rest =>
    if (match v with
        | some p => !p.isEmpty && is_path_inside_watch watch_path p
        | none => false)
    then .error key
    else generate_safe_paths_check watch_path rest

/-- Whether construction of the metadata store fails on the override
validation. -/
def metadata_construction_fails (watch_path : String)
    (metadata_config : List (String × Option String)) : Bool :=
  match generate_safe_paths_check watch_path metadata_config with
  | .error _ => true
  | .ok _ => false

/-- C6 counterexample: an override that resolves to a strict ancestor of
the watched root — so that resolve(O) is a prefix of resolve(watchedRoot)
as the claim requires — passes validation: construction does not fail. -/
theorem metadata_ancestor_override_accepted :
    pyStartswith "/data/sync" "/data" = true
    ∧ metadata_construction_fails "/data/sync" [("metadata_dir", some "/data")] = false := by
  decide

/-- C6 (amended): construction fails exactly when some nonempty override
value starts with the resolved watched root (the override is the root
itself or lies inside it); an override resolving to a strict ancestor of
the root is accepted. -/
theorem metadata_validation_spec (watch_path : String)
    (metadata_config : List (String × Option String)) :
    metadata_construction_fails watch_path metadata_config = true ↔
      ∃ k v, (k, some v) ∈ metadata_config ∧ v.isEmpty = false
        ∧ pyStartswith v watch_path = true := by
  induction metadata_config with
  | nil =>
    simp [metadata_construction_fails, generate_safe_paths_check]
  | cons kv rest ih =>
    obtain ⟨key, v⟩ := kv
    cases v with
    | none =>
      have heq : metadata_construction_fails watch_path ((key, none) :: rest)
          = metadata_construction_fails watch_path rest := by
        simp [metadata_construction_fails, generate_safe_paths_check]
      rw [heq, ih]
      constructor
      · rintro ⟨k, v, hmem, hv⟩
        exact ⟨k, v, List.mem_cons_of_mem _ hmem, hv⟩
      · rintro ⟨k, v, hmem, hv⟩
        rcases List.mem_cons.mp hmem with h | h
        · exact absurd (congrArg Prod.snd h) (by simp)
        · exact ⟨k, v, h, hv⟩
    | some p =>
      by_cases hp : (!p.isEmpty && is_path_inside_watch watch_path p) = true
      · have heq : metadata_construction_fails watch_path ((key, some p) :: rest) = true := by
          simp [metadata_construction_fails, generate_safe_paths_check, hp]
        rw [heq]
        simp only [Bool.and_eq_true, Bool.not_eq_true'] at hp
        constructor
        · intro _
          exact ⟨key, p, List.mem_cons_self _ _, hp.1, hp.2⟩
        · intro _; rfl
      · have heq : metadata_construction_fails watch_path ((key, some p) :: rest)
            = metadata_construction_fails watch_path rest := by
          simp [metadata_construction_fails, generate_safe_paths_check, hp]
        rw [heq, ih]
        constructor
        · rintro ⟨k, v, hmem, hv⟩
          exact ⟨k, v, List.mem_cons_of_mem _ hmem, hv⟩
        · rintro ⟨k, v, hmem, he, hs⟩
          rcases List.mem_cons.mp hmem with h | h
          · injection h with h1 h2
            injection h2 with h3
            subst h3
            exact absurd (by simp [is_path_inside_watch, he, hs]) hp
          · exact ⟨k, v, h, he, hs⟩

/-! ## Conflict detector (src/sersync/bidirectional/conflict_detector.py) -/

/-- `FileMetadata` of the conflict detector.  `mtime` and `size` are the
Python optionals; Python truthiness (`if meta.mtime and ...`) is modelled
by `optTruthyInt` / `optTruthyStr`. -/
structure FileMetadata where
  path : String
  exists? : Bool := true
  mtime : Option Int := none
  size : Option Int := none
  content_hash : Option String := none
deriving Repr, DecidableEq, Inhabited

/-- `ConflictDetector._files_identical`.  Mirrors the Python control flow:
differing exists-bits are never identical; two absent files are; differing
sizes are not; if both mtimes are truthy, differ by more than the
tolerance, and content hashing is disabled, the files differ; otherwise
when hashing is enabled and both hashes are truthy the hashes decide;
otherwise the files are assumed identical. -/
def files_identical (time_tolerance : Int) (enable_content_hash : Bool)
    (m1 m2 : FileMetadata) : Bool :=
  if m1.exists? != m2.exists? then false
  else if !m1.exists? && !m2.exists? then true
  else if m1.size != m2.size then false
  else if optTruthyInt m1.mtime && optTruthyInt m2.mtime
      && decide (time_tolerance < |m1.mtime.getD 0 - m2.mtime.getD 0|)
      && !enable_content_hash then false
  else if enable_content_hash && optTruthyStr m1.content_hash && optTruthyStr m2.content_hash
  then m1.content_hash == m2.content_hash
  else true

/-- C7 counterexample: hashing enabled but one hash missing, sizes equal,
mtimes 100 and 200 with tolerance 2 — the mtime check is skipped and the
files are deemed identical, although hash comparison is unavailable and
the mtimes differ by far more than the tolerance. -/
theorem files_identical_missing_hash_ignores_mtime :
    files_identical 2 true ⟨"/w/p", true, some 100, some 1, none⟩
        ⟨"/w/p", true, some 200, some 1, some "h"⟩ = true
    ∧ (2 : Int) < |(100 : Int) - 200|
    ∧ (⟨"/w/p", true, some 100, some 1, none⟩ : FileMetadata).content_hash = none := by
  refine ⟨by decide, by decide, rfl⟩

/-- C7 (amended): with both exists-bits true, identity requires equal
sizes; then, if hashing is enabled and both hashes are present, identity
is exactly hash equality (regardless of mtimes); if hashing is disabled,
identity holds exactly when the mtimes are not both present with a gap
above the tolerance; and if hashing is enabled but a hash is missing, the
mtime check is skipped and the files are deemed identical.  Different
exists-bits are never identical. -/
theorem files_identical_spec (tol : Int) (eh : Bool) (m1 m2 : FileMetadata) :
    (m1.exists? ≠ m2.exists? → files_identical tol eh m1 m2 = false)
    ∧ (m1.exists? = true → m2.exists? = true →
        (m1.size ≠ m2.size → files_identical tol eh m1 m2 = false)
        ∧ (m1.size = m2.size →
            (eh = true → optTruthyStr m1.content_hash = true →
              optTruthyStr m2.content_hash = true →
              (files_identical tol eh m1 m2 = true ↔ m1.content_hash = m2.content_hash))
            ∧ (eh = false →
              (files_identical tol eh m1 m2 = true ↔
                ¬(optTruthyInt m1.mtime = true ∧ optTruthyInt m2.mtime = true ∧
                  tol < |m1.mtime.getD 0 - m2.mtime.getD 0|)))
            ∧ (eh = true →
              (optTruthyStr m1.content_hash = false ∨ optTruthyStr m2.content_hash = false) →
              files_identical tol eh m1 m2 = true))) := by
  constructor
  · intro hne
    have hb : (m1.exists? != m2.exists?) = true := by
      cases h1 : m1.exists? <;> cases h2 : m2.exists? <;> simp_all
    simp [files_identical, hb]
  · intro h1 h2
    have hb : (m1.exists? != m2.exists?) = false := by rw [h1, h2]; rfl
    constructor
    · intro hsz
      simp [files_identical, hb, h1, h2, bne, beq_eq_false_iff_ne.mpr hsz]
    · intro hsz
      have hszb : (m1.size != m2.size) = false := by simp [bne, hsz]
      refine ⟨?_, ?_, ?_⟩
      · intro heh hh1 hh2
        simp [files_identical, hb, h1, h2, hszb, heh, hh1, hh2, beq_iff_eq]
      · intro heh
        subst heh
        by_cases hm : optTruthyInt m1.mtime = true ∧ optTruthyInt m2.mtime = true ∧
            tol < |m1.mtime.getD 0 - m2.mtime.getD 0|
        · simp [files_identical, hb, h1, h2, hszb, hm.1, hm.2.1, hm.2.2]
        · simp only [files_identical, hb, Bool.false_eq_true, if_false, h1, h2, hszb]
          simp only [Bool.not_true, Bool.and_false, Bool.false_and, Bool.false_eq_true,
            if_false, ite_self]
          by_cases ha : optTruthyInt m1.mtime = true
          · by_cases hc : optTruthyInt m2.mtime = true
            · have hd : ¬ tol < |m1.mtime.getD 0 - m2.mtime.getD 0| := fun hd =>
                hm ⟨ha, hc, hd⟩
              simp [ha, hc, hd, hm]
            · simp [ha, hc, hm]
          · simp [ha, hm]
      · intro heh hmiss
        rcases hmiss with hh | hh <;>
          simp [files_identical, hb, h1, h2, hszb, heh, hh]

/-- C7 witness: the amended identity specification applied to two present
files of equal size with equal hashes under enabled hashing. -/
theorem files_identical_spec_witness :
    ((⟨"/w/p", true, some 100, some 5, some "h"⟩ : FileMetadata).exists?
        ≠ (⟨"/w/p", true, some 300, some 5, some "h"⟩ : FileMetadata).exists? →
      files_identical 2 true ⟨"/w/p", true, some 100, some 5, some "h"⟩
        ⟨"/w/p", true, some 300, some 5, some "h"⟩ = false)
    ∧ ((⟨"/w/p", true, some 100, some 5, some "h"⟩ : FileMetadata).exists? = true →
        (⟨"/w/p", true, some 300, some 5, some "h"⟩ : FileMetadata).exists? = true →
        ((⟨"/w/p", true, some 100, some 5, some "h"⟩ : FileMetadata).size
            ≠ (⟨"/w/p", true, some 300, some 5, some "h"⟩ : FileMetadata).size →
          files_identical 2 true ⟨"/w/p", true, some 100, some 5, some "h"⟩
            ⟨"/w/p", true, some 300, some 5, some "h"⟩ = false)
        ∧ ((⟨"/w/p", true, some 100, some 5, some "h"⟩ : FileMetadata).size
            = (⟨"/w/p", true, some 300, some 5, some "h"⟩ : FileMetadata).size →
            ((true : Bool) = true →
              optTruthyStr (⟨"/w/p", true, some 100, some 5, some "h"⟩ : FileMetadata).content_hash = true →
              optTruthyStr (⟨"/w/p", true, some 300, some 5, some "h"⟩ : FileMetadata).content_hash = true →
              (files_identical 2 true ⟨"/w/p", true, some 100, some 5, some "h"⟩
                  ⟨"/w/p", true, some 300, some 5, some "h"⟩ = true ↔
                (⟨"/w/p", true, some 100, some 5, some "h"⟩ : FileMetadata).content_hash
                  = (⟨"/w/p", true, some 300, some 5, some "h"⟩ : FileMetadata).content_hash))
            ∧ ((true : Bool) = false →
              (files_identical 2 true ⟨"/w/p", true, some 100, some 5, some "h"⟩
                  ⟨"/w/p", true, some 300, some 5, some "h"⟩ = true ↔
                ¬(optTruthyInt (⟨"/w/p", true, some 100, some 5, some "h"⟩ : FileMetadata).mtime = true ∧
                  optTruthyInt (⟨"/w/p", true, some 300, some 5, some "h"⟩ : FileMetadata).mtime = true ∧
                  (2 : Int) < |(⟨"/w/p", true, some 100, some 5, some "h"⟩ : FileMetadata).mtime.getD 0
                    - (⟨"/w/p", true, some 300, some 5, some "h"⟩ : FileMetadata).mtime.getD 0|)))
            ∧ ((true : Bool) = true →
              (optTruthyStr (⟨"/w/p", true, some 100, some 5, some "h"⟩ : FileMetadata).content_hash = false ∨
                optTruthyStr (⟨"/w/p", true, some 300, some 5, some "h"⟩ : FileMetadata).content_hash = false) →
              files_identical 2 true ⟨"/w/p", true, some 100, some 5, some "h"⟩
                ⟨"/w/p", true, some 300, some 5, some "h"⟩ = true))) :=
  files_identical_spec 2 true ⟨"/w/p", true, some 100, some 5, some "h"⟩
    ⟨"/w/p", true, some 300, some 5, some "h"⟩

/-! ## Conflict resolver (src/sersync/bidirectional/conflict_resolver.py) -/

/-- The fields of `ResolutionResult` the KeepNewer claim concerns;
`strategy_used` holds the enum's string value. -/
structure ResolutionResult where
  success : Bool
  strategy_used : String
  action_taken : String
  backup_paths : List (String × String)
deriving Repr, DecidableEq, Inhabited

/-- `ConflictResolver._resolve_keep_newer`, with `_backup_file` abstracted
as a parameter (it performs file I/O and may return no path on failure). -/
def resolve_keep_newer (enable_backup : Bool)
    (backup_file : FileMetadata → String → Option String)
    (local_meta remote_meta : FileMetadata) : ResolutionResult :=
  if !local_meta.exists? then
    ⟨true, "keep_newer", "Use remote (local deleted)", []⟩
  else if !remote_meta.exists? then
    ⟨true, "keep_newer", "Use local (remote deleted)", []⟩
  else if optTruthyInt local_meta.mtime && optTruthyInt remote_meta.mtime then
    if local_meta.mtime.getD 0 > remote_meta.mtime.getD 0 then
      let bp := if enable_backup then backup_file remote_meta "remote" else none
      ⟨true, "keep_newer", "Use local (newer)",
        match bp with | some p => [("remote", p)] | none => []⟩
    else
      let bp := if enable_backup then backup_file local_meta "local" else none
      ⟨true, "keep_newer", "Use remote (newer)",
        match bp with | some p => [("local", p)] | none => []⟩
  else
    ⟨true, "keep_newer", "Use local (default)", []⟩

/-- C8 counterexample: both sides exist, the local mtime is unknown but the
remote mtime is known — KeepNewer still falls back to keeping the local
side, although the mtimes are not both unknown. -/
theorem keep_newer_one_unknown_falls_back_to_local :
    (resolve_keep_newer true (fun m s => some (m.path ++ "." ++ s))
        ⟨"/w/p", true, none, some 1, none⟩ ⟨"/w/p", true, some 100, some 2, none⟩).action_taken
      = "Use local (default)"
    ∧ (⟨"/w/p", true, some 100, some 2, none⟩ : FileMetadata).mtime ≠ none := by
  refine ⟨rfl, by decide⟩

/-- C8 (amended): when both sides exist and both mtimes are known (truthy),
KeepNewer keeps the local side if its mtime is strictly larger and the
remote side otherwise (ties keep remote), recording a backup of the losing
side when backup is enabled and the backup write succeeds; when either
mtime is unknown it falls back to keeping the local side. -/
theorem resolve_keep_newer_spec (eb : Bool)
    (bf : FileMetadata → String → Option String) (l r : FileMetadata)
    (hl : l.exists? = true) (hr : r.exists? = true) :
    (optTruthyInt l.mtime = true → optTruthyInt r.mtime = true →
      (l.mtime.getD 0 > r.mtime.getD 0 →
        resolve_keep_newer eb bf l r = ⟨true, "keep_newer", "Use local (newer)",
          match (if eb then bf r "remote" else none) with
          | some p => [("remote", p)] | none => []⟩)
      ∧ (¬ l.mtime.getD 0 > r.mtime.getD 0 →
        resolve_keep_newer eb bf l r = ⟨true, "keep_newer", "Use remote (newer)",
          match (if eb then bf l "local" else none) with
          | some p => [("local", p)] | none => []⟩))
    ∧ ((optTruthyInt l.mtime = false ∨ optTruthyInt r.mtime = false) →
      resolve_keep_newer eb bf l r = ⟨true, "keep_newer", "Use local (default)", []⟩) := by
  constructor
  · intro hlm hrm
    constructor
    · intro hgt
      simp [resolve_keep_newer, hl, hr, hlm, hrm, hgt]
    · intro hle
      simp [resolve_keep_newer, hl, hr, hlm, hrm, hle]
  · intro hmiss
    rcases hmiss with h | h <;> simp [resolve_keep_newer, hl, hr, h]

/-- C8 witness: the amended KeepNewer specification applied to two present
files with known mtimes 120 (local) and 100 (remote). -/
theorem resolve_keep_newer_spec_witness :
    (optTruthyInt (⟨"/w/p", true, some 120, some 1, none⟩ : FileMetadata).mtime = true →
      optTruthyInt (⟨"/w/p", true, some 100, some 2, none⟩ : FileMetadata).mtime = true →
      ((⟨"/w/p", true, some 120, some 1, none⟩ : FileMetadata).mtime.getD 0
          > (⟨"/w/p", true, some 100, some 2, none⟩ : FileMetadata).mtime.getD 0 →
        resolve_keep_newer true (fun m s => some (m.path ++ "_" ++ s))
            ⟨"/w/p", true, some 120, some 1, none⟩ ⟨"/w/p", true, some 100, some 2, none⟩
          = ⟨true, "keep_newer", "Use local (newer)",
              match (if true then (fun (m : FileMetadata) (s : String) =>
                  some (m.path ++ "_" ++ s)) ⟨"/w/p", true, some 100, some 2, none⟩ "remote"
                else none) with
              | some p => [("remote", p)] | none => []⟩)
      ∧ (¬ (⟨"/w/p", true, some 120, some 1, none⟩ : FileMetadata).mtime.getD 0
          > (⟨"/w/p", true, some 100, some 2, none⟩ : FileMetadata).mtime.getD 0 →
        resolve_keep_newer true (fun m s => some (m.path ++ "_" ++ s))
            ⟨"/w/p", true, some 120, some 1, none⟩ ⟨"/w/p", true, some 100, some 2, none⟩
          = ⟨true, "keep_newer", "Use remote (newer)",
              match (if true then (fun (m : FileMetadata) (s : String) =>
                  some (m.path ++ "_" ++ s)) ⟨"/w/p", true, some 120, some 1, none⟩ "local"
                else none) with
              | some p => [("local", p)] | none => []⟩))
    ∧ ((optTruthyInt (⟨"/w/p", true, some 120, some 1, none⟩ : FileMetadata).mtime = false ∨
        optTruthyInt (⟨"/w/p", true, some 100, some 2, none⟩ : FileMetadata).mtime = false) →
      resolve_keep_newer true (fun m s => some (m.path ++ "_" ++ s))
          ⟨"/w/p", true, some 120, some 1, none⟩ ⟨"/w/p", true, some 100, some 2, none⟩
        = ⟨true, "keep_newer", "Use local (default)", []⟩) :=
  resolve_keep_newer_spec true (fun m s => some (m.path ++ "_" ++ s))
    ⟨"/w/p", true, some 120, some 1, none⟩ ⟨"/w/p", true, some 100, some 2, none⟩ rfl rfl

/-! ## Conflict detection and its symmetry (C9) -/

/-- The `ConflictType` enum of the detector. -/
inductive ConflictType where
  | no_conflict
  | both_modified
  | local_deleted_remote_modified
  | remote_deleted_local_modified
  | both_created
  | move_conflict
deriving Repr, DecidableEq

/-- The `ConflictInfo` record as `detect_conflict` builds it. -/
structure ConflictInfo where
  conflict_type : ConflictType
  local_meta : FileMetadata
  remote_meta : FileMetadata
  base_meta : Option FileMetadata
  details : String
deriving Repr, DecidableEq

/-- `ConflictDetector.detect_conflict`: the seven-scenario case analysis. -/
def detect_conflict (tol : Int) (eh : Bool) (local_meta remote_meta : FileMetadata)
    (base_meta : Option FileMetadata) : Option ConflictInfo :=
  if !local_meta.exists? && !remote_meta.exists? then none
  else if local_meta.exists? && !remote_meta.exists? then
    (match base_meta with
     | some b =>
       if b.exists? then
         some ⟨.remote_deleted_local_modified, local_meta, remote_meta, base_meta,
           "Remote deleted but local modified"⟩
       else none
     | none => none)
  else if !local_meta.exists? && remote_meta.exists? then
    (match base_meta with
     | some b =>
       if b.exists? then
         some ⟨.local_deleted_remote_modified, local_meta, remote_meta, base_meta,
           "Local deleted but remote modified"⟩
       else none
     | none => none)
  else
    if (match base_meta with | some b => !b.exists? | none => false)
        && !(files_identical tol eh local_meta remote_meta) then
      some ⟨.both_created, local_meta, remote_meta, base_meta,
        "Both sides created different files"⟩
    else if files_identical tol eh local_meta remote_meta then none
    else
      (match base_meta with
       | some b =>
         if b.exists? && !(files_identical tol eh local_meta b)
             && !(files_identical tol eh remote_meta b) then
           some ⟨.both_modified, local_meta, remote_meta, base_meta,
             "Both sides modified the file"⟩
         else none
       | none => none)

/-- The mirror on conflict types induced by swapping the detector's
arguments. -/
def mirror_conflict_type : ConflictType → ConflictType
  | .local_deleted_remote_modified => .remote_deleted_local_modified
  | .remote_deleted_local_modified => .local_deleted_remote_modified
  | t => t

theorem files_identical_comm (tol : Int) (eh : Bool) (m1 m2 : FileMetadata) :
    files_identical tol eh m1 m2 = files_identical tol eh m2 m1 := by
  unfold files_identical
  have hex : (m1.exists? != m2.exists?) = (m2.exists? != m1.exists?) := by
    cases m1.exists? <;> cases m2.exists? <;> rfl
  have hsz : (m1.size != m2.size) = (m2.size != m1.size) := by
    by_cases h : m1.size = m2.size
    · simp [h]
    · simp [bne, beq_eq_false_iff_ne.mpr h, beq_eq_false_iff_ne.mpr (Ne.symm h)]
  have hhash : (m1.content_hash == m2.content_hash) = (m2.content_hash == m1.content_hash) := by
    by_cases h : m1.content_hash = m2.content_hash
    · simp [h]
    · simp [beq_eq_false_iff_ne.mpr h, beq_eq_false_iff_ne.mpr (Ne.symm h)]
  have habs : |m1.mtime.getD 0 - m2.mtime.getD 0| = |m2.mtime.getD 0 - m1.mtime.getD 0| :=
    abs_sub_comm _ _
  have hmt : (optTruthyInt m1.mtime && optTruthyInt m2.mtime)
      = (optTruthyInt m2.mtime && optTruthyInt m1.mtime) := Bool.and_comm _ _
  have hht : (eh && optTruthyStr m1.content_hash && optTruthyStr m2.content_hash)
      = (eh && optTruthyStr m2.content_hash && optTruthyStr m1.content_hash) := by
    cases eh <;> cases h1 : optTruthyStr m1.content_hash <;>
      cases h2 : optTruthyStr m2.content_hash <;> rfl
  have hand : (m1.exists? = false && m2.exists? = false)
      = (m2.exists? = false && m1.exists? = false) := by
    cases m1.exists? <;> cases m2.exists? <;> rfl
  rw [hex, hsz, hhash, habs, hmt, hht]
  cases m1.exists? <;> cases m2.exists? <;> rfl

/-- C9: swapping the local and remote arguments of the conflict detector
mirrors the result: no-conflict stays no-conflict, the two
deleted-versus-modified types swap, and BothModified and BothCreated are
unchanged. -/
theorem detect_conflict_symm (tol : Int) (eh : Bool) (l r : FileMetadata)
    (b : Option FileMetadata) :
    (detect_conflict tol eh r l b).map (fun c => c.conflict_type)
      = (detect_conflict tol eh l r b).map (fun c => mirror_conflict_type c.conflict_type) := by
  have hid : files_identical tol eh r l = files_identical tol eh l r :=
    files_identical_comm tol eh r l
  cases b with
  | none =>
    cases hle : l.exists? <;> cases hre : r.exists? <;>
      cases hi : files_identical tol eh l r <;>
        simp [detect_conflict, hle, hre, hid, hi, mirror_conflict_type]
  | some bm =>
    cases hle : l.exists? <;> cases hre : r.exists? <;> cases hbe : bm.exists? <;>
      cases hi : files_identical tol eh l r <;>
        cases hlb : files_identical tol eh l bm <;>
          cases hrb : files_identical tol eh r bm <;>
            simp [detect_conflict, hle, hre, hbe, hid, hi, hlb, hrb, mirror_conflict_type]

/-! ## String primitives for the failure ledger

The ledger code is line oriented: Python `split('\n')`, `'\n'.join`,
`strip()`, `rstrip()` and `replace(pat, '')`.  They are modelled at the
character-list level so that their interaction can be proved. -/

/-- Model of Python `s.split('\n')` on character lists.  The result is
never empty (`''.split('\n') == ['']`). -/
def splitNlChars : List Char → List (List Char)
  | [] => [[]]
  | c :: cs =>
    if c == '\n' then [] :: splitNlChars cs
    else
      match splitNlChars cs with
      | [] => [[c]]
      | h :: t => (c :: h) :: t

/-- Model of Python `s.split('\n')`. -/
def splitNl (s : String) : List String :=
  (splitNlChars s.data).map String.mk

/-- Model of Python `'\n'.join(lines)` on character lists. -/
def joinNlChars : List (List Char) → List Char
  | [] => []
  | [l] => l
  | l :: ls => l ++ '\n' :: joinNlChars ls

/-- Model of Python `'\n'.join(lines)`. -/
def joinNl (ls : List String) : String :=
  String.mk (joinNlChars (ls.map String.data))

/-- Strip trailing whitespace from a character list (Python `rstrip()`). -/
def stripBackChars (cs : List Char) : List Char :=
  (cs.reverse.dropWhile Char.isWhitespace).reverse

/-- Strip leading and trailing whitespace (Python `strip()`). -/
def stripChars (cs : List Char) : List Char :=
  stripBackChars (cs.dropWhile Char.isWhitespace)

/-- Model of Python `s.strip()`. -/
def pyStrip (s : String) : String :=
  String.mk (stripChars s.data)

/-- Model of Python `s.rstrip()`. -/
def pyRstrip (s : String) : String :=
  String.mk (stripBackChars s.data)

/-- Model of `content.split('\n')[0]`: the first line of a file. -/
def first_line (s : String) : String :=
  (splitNl s).headD ""

/-- The decimal digit character for `d < 10`. -/
def digitChar (d : Nat) : Char :=
  Char.ofNat (48 + d)

/-- Fuel-driven decimal printer (the fuel `n + 1` always suffices). -/
def natReprAux : Nat → Nat → List Char
  | 0, _ => []
  | fuel + 1, n =>
    if n < 10 then [digitChar n]
    else natReprAux fuel (n / 10) ++ [digitChar (n % 10)]

/-- Model of Python `str(n)` for a natural number. -/
def natRepr (n : Nat) : String :=
  String.mk (natReprAux (n + 1) n)

/-- Model of Python `s.replace(pat, '')` for a nonempty `pat`:
left-to-right removal of every occurrence. -/
def replAllChars (pat : List Char) : List Char → List Char
  | [] => []
  | c :: cs =>
    if h : pat ≠ [] ∧ pat.isPrefixOf (c :: cs) then
      replAllChars pat ((c :: cs).drop pat.length)
    else
      c :: replAllChars pat cs
termination_by cs => cs.length
decreasing_by
  · simp only [List.drop, List.length_drop, List.length_cons]
    have := List.length_pos.mpr h.1
    omega
  · simp

/-- Model of Python `s.replace(pat, '')` (`pat` nonempty in every use). -/
def pyReplace (s pat : String) : String :=
  String.mk (replAllChars pat.data s.data)

/-! ### Basic lemmas about the string primitives -/

theorem splitNlChars_ne_nil (cs : List Char) : splitNlChars cs ≠ [] := by
  induction cs with
  | nil => simp [splitNlChars]
  | cons c cs ih =>
    by_cases hc : c == '\n'
    · simp [splitNlChars, hc]
    · simp only [splitNlChars, hc, Bool.false_eq_true, if_false]
      rcases h : splitNlChars cs with _ | ⟨h1, t⟩
      · exact absurd h ih
      · simp

theorem splitNlChars_headD (cs : List Char) :
    (splitNlChars cs).headD [] = cs.takeWhile (fun c => !(c == '\n')) := by
  induction cs with
  | nil => rfl
  | cons c cs ih =>
    by_cases hc : c == '\n'
    · simp [splitNlChars, hc, List.takeWhile_cons]
    · simp only [splitNlChars, hc, Bool.false_eq_true, if_false, List.takeWhile_cons,
        Bool.not_false, if_true]
      rcases h : splitNlChars cs with _ | ⟨h1, t⟩
      · exact absurd h (splitNlChars_ne_nil cs)
      · rw [h] at ih
        simp only [List.headD_cons] at ih ⊢
        rw [ih]

theorem first_line_eq_takeWhile (s : String) :
    first_line s = String.mk (s.data.takeWhile (fun c => !(c == '\n'))) := by
  unfold first_line splitNl
  rcases h : splitNlChars s.data with _ | ⟨l, t⟩
  · exact absurd h (splitNlChars_ne_nil s.data)
  · have hh := splitNlChars_headD s.data
    rw [h] at hh
    simp only [List.headD_cons] at hh
    simp only [List.map_cons, List.headD_cons, hh]

theorem splitNlChars_no_nl (cs : List Char) (h : ('\n' : Char) ∉ cs) :
    splitNlChars cs = [cs] := by
  induction cs with
  | nil => rfl
  | cons c cs ih =>
    have hc : (c == '\n') = false := by
      simp only [List.mem_cons, not_or] at h
      exact beq_eq_false_iff_ne.mpr (fun he => h.1 he.symm)
    have hcs : ('\n' : Char) ∉ cs := fun hx => h (List.mem_cons_of_mem _ hx)
    simp only [splitNlChars, hc, Bool.false_eq_true, if_false, ih hcs]

theorem splitNlChars_append_nl (l rest : List Char) (h : ('\n' : Char) ∉ l) :
    splitNlChars (l ++ '\n' :: rest) = l :: splitNlChars rest := by
  induction l with
  | nil => simp [splitNlChars]
  | cons c cs ih =>
    have hc : (c == '\n') = false := by
      simp only [List.mem_cons, not_or] at h
      exact beq_eq_false_iff_ne.mpr (fun he => h.1 he.symm)
    have hcs : ('\n' : Char) ∉ cs := fun hx => h (List.mem_cons_of_mem _ hx)
    simp only [List.cons_append, splitNlChars, hc, Bool.false_eq_true, if_false]
    rw [List.append_eq, ih hcs]

theorem splitNlChars_joinNlChars (ls : List (List Char)) (hne : ls ≠ [])
    (hnl : ∀ l ∈ ls, ('\n' : Char) ∉ l) :
    splitNlChars (joinNlChars ls) = ls := by
  induction ls with
  | nil => exact absurd rfl hne
  | cons l ls ih =>
    cases ls with
    | nil =>
      show splitNlChars (joinNlChars [l]) = [l]
      rw [show joinNlChars [l] = l from rfl]
      exact splitNlChars_no_nl l (hnl l (List.mem_cons_self _ _))
    | cons l2 ls2 =>
      rw [show joinNlChars (l :: l2 :: ls2) = l ++ '\n' :: joinNlChars (l2 :: ls2) from rfl]
      rw [splitNlChars_append_nl l _ (hnl l (List.mem_cons_self _ _))]
      rw [ih (by simp) (fun x hx => hnl x (List.mem_cons_of_mem _ hx))]

theorem splitNl_joinNl (ls : List String) (hne : ls ≠ [])
    (hnl : ∀ l ∈ ls, ('\n' : Char) ∉ l.data) :
    splitNl (joinNl ls) = ls := by
  unfold splitNl joinNl
  rw [splitNlChars_joinNlChars (ls.map String.data)
    (by simpa using hne)
    (by
      intro l hl
      obtain ⟨s, hs, rfl⟩ := List.mem_map.mp hl
      exact hnl s hs)]
  rw [List.map_map]
  exact List.map_congr_left (fun s _ => rfl) |>.trans (List.map_id ls)

theorem dropWhile_length_le (p : Char → Bool) (l : List Char) :
    (l.dropWhile p).length ≤ l.length := by
  induction l with
  | nil => simp
  | cons c cs ih =>
    by_cases hc : p c
    · rw [List.dropWhile_cons, if_pos hc]
      exact le_trans ih (by simp)
    · rw [List.dropWhile_cons, if_neg hc]

theorem dropWhile_cons_self (p : Char → Bool) (x : Char) (t : List Char)
    (h : (x :: t).dropWhile p = x :: t) : p x = false := by
  by_cases hp : p x
  · rw [List.dropWhile_cons, if_pos hp] at h
    have hl := congrArg List.length h
    have hle := dropWhile_length_le p t
    simp only [List.length_cons] at hl
    omega
  · exact Bool.eq_false_iff.mpr hp

theorem dropWhile_eq_self_of_all (p : Char → Bool) (l : List Char)
    (h : ∀ c ∈ l, p c = false) : l.dropWhile p = l := by
  induction l with
  | nil => rfl
  | cons c cs ih =>
    rw [List.dropWhile_cons, if_neg (by simp [h c (List.mem_cons_self _ _)])]

theorem dropWhile_append_char (p : Char → Bool) (a b : List Char) :
    (a ++ b).dropWhile p
      = if (a.dropWhile p).isEmpty then b.dropWhile p else a.dropWhile p ++ b := by
  induction a with
  | nil => simp
  | cons x xs ih =>
    by_cases hx : p x
    · simp only [List.cons_append, List.dropWhile_cons, hx, if_true, ih]
    · simp [List.dropWhile_cons, hx]

theorem stripBackChars_cons (x : Char) (hx : x.isWhitespace = false) (xs : List Char) :
    stripBackChars (x :: xs) = x :: stripBackChars xs := by
  unfold stripBackChars
  rw [List.reverse_cons, dropWhile_append_char]
  by_cases he : (xs.reverse.dropWhile Char.isWhitespace).isEmpty
  · rw [if_pos he]
    rw [List.isEmpty_iff.mp he]
    simp [List.dropWhile_cons, hx]
  · rw [if_neg he]
    simp

theorem stripChars_cons (x : Char) (hx : x.isWhitespace = false) (xs : List Char) :
    stripChars (x :: xs) = x :: stripBackChars xs := by
  unfold stripChars
  rw [List.dropWhile_cons, if_neg (by simp [hx])]
  exact stripBackChars_cons x hx xs

theorem stripChars_eq_self (cs : List Char)
    (hf : cs.dropWhile Char.isWhitespace = cs)
    (hb : cs.reverse.dropWhile Char.isWhitespace = cs.reverse) :
    stripChars cs = cs := by
  unfold stripChars stripBackChars
  rw [hf, hb, List.reverse_reverse]

theorem strip_append_clean (xs ys : List Char)
    (hx : xs.dropWhile Char.isWhitespace = xs) (hxne : xs ≠ [])
    (hy : ys.reverse.dropWhile Char.isWhitespace = ys.reverse) (hyne : ys ≠ []) :
    stripChars (xs ++ ys) = xs ++ ys := by
  apply stripChars_eq_self
  · match xs, hxne with
    | x :: xt, _ =>
      have hwx := dropWhile_cons_self Char.isWhitespace x xt hx
      rw [List.cons_append, List.dropWhile_cons, if_neg (by simp [hwx])]
  · rw [List.reverse_append]
    rcases hys : ys.reverse with _ | ⟨y, yt⟩
    · exact absurd (List.reverse_eq_nil_iff.mp hys) hyne
    · rw [hys] at hy
      have hwy := dropWhile_cons_self Char.isWhitespace y yt hy
      rw [List.cons_append, List.dropWhile_cons, if_neg (by simp [hwy])]

theorem dropWhile_head_false (p : Char → Bool) (cs : List Char) (x : Char) (t : List Char)
    (h : cs.dropWhile p = x :: t) : p x = false := by
  induction cs with
  | nil => simp at h
  | cons c cs ih =>
    rw [List.dropWhile_cons] at h
    by_cases hc : p c
    · rw [if_pos hc] at h
      exact ih h
    · rw [if_neg hc] at h
      injection h with h1 h2
      subst h1
      exact Bool.eq_false_iff.mpr hc

theorem stripChars_head (cs : List Char) :
    (stripChars cs).head? = (cs.dropWhile Char.isWhitespace).head? := by
  rcases h : cs.dropWhile Char.isWhitespace with _ | ⟨x, t⟩
  · unfold stripChars
    rw [h]
    rfl
  · have hx : Char.isWhitespace x = false := dropWhile_head_false Char.isWhitespace cs x t h
    unfold stripChars
    rw [h, stripBackChars_cons x hx]
    rfl

/-! ## Failure ledger writers (src/sersync/core/sync_engine.py `_log_failure`,
src/sersync/core/faillog_executor.py `_clear_script`,
`_generate_script_with_commands`) -/

/-- The header `_log_failure` writes when the ledger file is missing. -/
def faillog_header : String :=
  "#!/bin/bash\n# FailLog retry script - generated by sersync\nRETRY_COUNT=0\nFAILED_COUNT=0\n\n"

/-- Model of Python `list.insert(i, x)` (clamping to append past the end). -/
def pyInsert (i : Nat) (x : String) (l : List String) : List String :=
  l.take i ++ [x] ++ l.drop i

/-- The per-failure block `_log_failure` appends: header comment, the
`Retrying:` echo, the literal command, exit-code capture, SUCCESS/FAILED
branches and the counter increments. -/
def fail_block (comment cmd : String) : String :=
  "# Failed at " ++ comment ++ "\n" ++
  "echo 'Retrying: " ++ cmd ++ "'\n" ++
  cmd ++ "\n" ++
  "RETRY_RESULT=$?\n" ++
  "if [ $RETRY_RESULT -eq 0 ]; then\n" ++
  "    echo 'SUCCESS: " ++ cmd ++ "'\n" ++
  "else\n" ++
  "    echo 'FAILED: " ++ cmd ++ " (exit code: '$RETRY_RESULT')'\n" ++
  "    FAILED_COUNT=$((FAILED_COUNT + 1))\n" ++
  "fi\n" ++
  "RETRY_COUNT=$((RETRY_COUNT + 1))\n" ++
  "\n"

/-- `SyncEngine._log_failure` as a function of the prior file content
(`none` when the file is missing): fresh header on creation, shebang
re-insertion when absent, counter re-insertion when absent, then append
the failure block. -/
def log_failure_content (existing : Option String) (comment cmd : String) : String :=
  let base :=
    match existing with
    | none => faillog_header
    | some content =>
      if !(pyStartswith content "#!/bin/bash") then faillog_header ++ content
      else if !(containsSubstr content "RETRY_COUNT=0") then
        joinNl (pyInsert 5 "" (pyInsert 4 "FAILED_COUNT=0" (pyInsert 3 "RETRY_COUNT=0"
          (pyInsert 2 "# FailLog retry script - generated by sersync" (splitNl content)))))
      else content
  base ++ fail_block comment cmd

/-- `FailLogExecutor._clear_script` writes exactly the shebang line. -/
def clear_script_content : String := "#!/bin/bash\n"

/-- The lines of one retry block of
`FailLogExecutor._generate_script_with_commands` (`i` is the 1-based
command index printed in the comment). -/
def retry_block_lines (i : Nat) (cmd : String) : List String :=
  ["# Retry command " ++ natRepr i ++ " (previously failed)",
   "echo 'Retrying: " ++ cmd ++ "'",
   cmd,
   "RETRY_RESULT=$?",
   "if [ $RETRY_RESULT -eq 0 ]; then",
   "    echo 'SUCCESS: " ++ cmd ++ "'",
   "else",
   "    echo 'FAILED: " ++ cmd ++ " (exit code: '$RETRY_RESULT')'",
   "    FAILED_COUNT=$((FAILED_COUNT + 1))",
   "fi",
   "RETRY_COUNT=$((RETRY_COUNT + 1))",
   ""]

/-- The `for i, cmd in enumerate(commands)` loop of
`_generate_script_with_commands`, numbering commands from `i`. -/
def numbered_blocks (i : Nat) : List String → List String
  | [] => []
  | c :: cs => retry_block_lines i c ++ numbered_blocks (i + 1) cs

/-- `FailLogExecutor._generate_script_with_commands`: fresh counter
scaffolding followed by one retry block per command, joined by newlines. -/
def generate_script_with_commands (cmds : List String) : String :=
  joinNl (["#!/bin/bash",
           "# FailLog retry script - generated by sersync (incremental cleanup)",
           "RETRY_COUNT=0",
           "FAILED_COUNT=0",
           ""] ++ numbered_blocks 1 cmds)

theorem takeWhile_append_stop (p : Char → Bool) (a : List Char)
    (ha : ∀ c ∈ a, p c = true) (x : Char) (hx : p x = false) (y : List Char) :
    (a ++ x :: y).takeWhile p = a := by
  induction a with
  | nil => simp [List.takeWhile_cons, hx]
  | cons c cs ih =>
    rw [List.cons_append, List.takeWhile_cons, if_pos (ha c (List.mem_cons_self _ _))]
    rw [ih (fun d hd => ha d (List.mem_cons_of_mem _ hd))]

theorem pyInsert_cons (i : Nat) (x h : String) (t : List String) :
    pyInsert (i + 1) x (h :: t) = h :: pyInsert i x t := by
  simp [pyInsert]

theorem pyInsert_ne_nil (i : Nat) (x : String) (l : List String) : pyInsert i x l ≠ [] := by
  simp [pyInsert]

/-- C10: each of the three ledger writers — the dispatcher's failure
append (file missing, or an existing file whose first line is the
shebang), the executor's clear, and the executor's regeneration — leaves
a file whose first line is exactly `#!/bin/bash`. -/
theorem first_line_of_data (s : String) {r : List Char}
    (h : s.data = ("#!/bin/bash" : String).data ++ '\n' :: r) :
    first_line s = "#!/bin/bash" := by
  rw [first_line_eq_takeWhile]
  apply String.ext
  show s.data.takeWhile (fun c => !(c == '\n')) = ("#!/bin/bash" : String).data
  rw [h]
  exact takeWhile_append_stop _ _ (by decide) _ (by decide) _

theorem faillog_shebang_invariant :
    (∀ comment cmd, first_line (log_failure_content none comment cmd) = "#!/bin/bash")
    ∧ (∀ content comment cmd, first_line content = "#!/bin/bash" →
        first_line (log_failure_content (some content) comment cmd) = "#!/bin/bash")
    ∧ first_line clear_script_content = "#!/bin/bash"
    ∧ (∀ cmds, first_line (generate_script_with_commands cmds) = "#!/bin/bash") := by
  refine ⟨?_, ?_, by decide, ?_⟩
  · intro comment cmd
    exact first_line_of_data _ rfl
  · intro content comment cmd hfl
    rw [first_line_eq_takeWhile] at hfl
    have hfl2 : content.data.takeWhile (fun c => !(c == '\n'))
        = ("#!/bin/bash" : String).data := congrArg String.data hfl
    by_cases hsw : pyStartswith content "#!/bin/bash"
    · by_cases hrc : containsSubstr content "RETRY_COUNT=0"
      · -- content kept as is, block appended
        have hsplit := List.takeWhile_append_dropWhile
          (p := fun c => !(c == '\n')) (l := content.data)
        rcases hdw : content.data.dropWhile (fun c => !(c == '\n')) with _ | ⟨c0, rest⟩
        · -- no newline: content is exactly the shebang, contradicting RETRY_COUNT
          have hcontent : content = "#!/bin/bash" := by
            apply String.ext
            rw [← hsplit, hdw, hfl2]
            simp
          rw [hcontent] at hrc
          exact absurd hrc (by decide)
        · have hc0 : c0 = '\n' := by
            have := dropWhile_head_false (fun c => !(c == '\n')) content.data c0 rest hdw
            simpa using this
          subst hc0
          have hdata : content.data
              = ("#!/bin/bash" : String).data ++ '\n' :: rest := by
            rw [← hsplit, hdw, hfl2]
          have hbase : log_failure_content (some content) comment cmd
              = content ++ fail_block comment cmd := by
            simp only [log_failure_content, hsw, hrc, Bool.not_true, Bool.false_eq_true,
              if_false]
          rw [hbase]
          refine first_line_of_data _ (r := rest ++ (fail_block comment cmd).data) ?_
          rw [String.data_append, hdata, List.append_assoc, List.cons_append]
          rfl
      · -- shebang present, counters missing: lines are rebuilt by insertion
        rcases hsp : splitNlChars content.data with _ | ⟨l0, T⟩
        · exact absurd hsp (splitNlChars_ne_nil content.data)
        · have hl0 : l0 = ("#!/bin/bash" : String).data := by
            have := splitNlChars_headD content.data
            rw [hsp] at this
            simp only [List.headD_cons] at this
            rw [this, hfl2]
          have hsplitNl : splitNl content = "#!/bin/bash" :: T.map String.mk := by
            unfold splitNl
            rw [hsp, hl0]
            rfl
          have hrc2 : containsSubstr content "RETRY_COUNT=0" = false :=
            Bool.eq_false_iff.mpr hrc
          have hbase : log_failure_content (some content) comment cmd
              = joinNl ("#!/bin/bash" ::
                  pyInsert 4 "" (pyInsert 3 "FAILED_COUNT=0" (pyInsert 2 "RETRY_COUNT=0"
                    (pyInsert 1 "# FailLog retry script - generated by sersync"
                      (T.map String.mk))))) ++ fail_block comment cmd := by
            simp only [log_failure_content, hsw, hrc2, Bool.not_true, Bool.false_eq_true,
              if_false, Bool.not_false, if_true]
            rw [hsplitNl, pyInsert_cons, pyInsert_cons, pyInsert_cons, pyInsert_cons]
          rw [hbase]
          rcases hR : pyInsert 4 "" (pyInsert 3 "FAILED_COUNT=0" (pyInsert 2 "RETRY_COUNT=0"
              (pyInsert 1 "# FailLog retry script - generated by sersync"
                (T.map String.mk)))) with _ | ⟨r1, R⟩
          · exact absurd hR (pyInsert_ne_nil _ _ _)
          · refine first_line_of_data _
              (r := joinNlChars ((r1 :: R).map String.data)
                ++ (fail_block comment cmd).data) ?_
            have hjoin : (joinNl ("#!/bin/bash" :: r1 :: R)).data
                = ("#!/bin/bash" : String).data
                  ++ '\n' :: joinNlChars ((r1 :: R).map String.data) := rfl
            rw [String.data_append, hjoin, List.append_assoc, List.cons_append]
            rfl
    · -- shebang absent: the fresh header is prepended
      have hsw2 : pyStartswith content "#!/bin/bash" = false := Bool.eq_false_iff.mpr hsw
      have hbase : log_failure_content (some content) comment cmd
          = (faillog_header ++ content) ++ fail_block comment cmd := by
        simp only [log_failure_content, hsw2, Bool.not_false, if_true]
      rw [hbase]
      refine first_line_of_data _
        (r := ("# FailLog retry script - generated by sersync\nRETRY_COUNT=0\nFAILED_COUNT=0\n\n" : String).data
          ++ (content.data ++ (fail_block comment cmd).data)) ?_
      rw [String.data_append, String.data_append]
      rw [show faillog_header.data = ("#!/bin/bash" : String).data
          ++ '\n' :: ("# FailLog retry script - generated by sersync\nRETRY_COUNT=0\nFAILED_COUNT=0\n\n" : String).data from rfl]
      simp only [List.append_assoc, List.cons_append]
  · intro cmds
    exact first_line_of_data _ rfl

/-- C10 witness: the invariant applied to an existing ledger whose first
line is the shebang and which already holds the counter initialization. -/
theorem faillog_shebang_invariant_witness :
    first_line (log_failure_content
      (some "#!/bin/bash\nRETRY_COUNT=0\nFAILED_COUNT=0\n")
      "2024-01-01 10:00:00 - DELETE_FILE /w/a.txt -> 10.0.0.2::data"
      "rsync -artuz --delete /w/ 10.0.0.2::data/a.txt") = "#!/bin/bash" :=
  faillog_shebang_invariant.2.1 "#!/bin/bash\nRETRY_COUNT=0\nFAILED_COUNT=0\n"
    "2024-01-01 10:00:00 - DELETE_FILE /w/a.txt -> 10.0.0.2::data"
    "rsync -artuz --delete /w/ 10.0.0.2::data/a.txt" (by rfl)

/-! ## Failure-ledger executor (src/sersync/core/faillog_executor.py)

One tick of `FailLogExecutor._check_and_execute`.  Running the script
under `/bin/bash` is abstracted as functions `exec1`, `exec2 :
String → Bool × String` (exit-0 flag and captured stdout) — `exec1` models
`_execute_script`, `exec2` the re-run of `_execute_script_with_analysis`
inside `_perform_incremental_cleanup`.  The theorems instantiate them with
the modelled output of a well-formed ledger (`script_output`). -/

/-- `FailLogExecutor._has_rsync_commands`: some line of the stripped
content starts (after stripping) with `rsync `. -/
def has_rsync_commands (content : String) : Bool :=
  (splitNl (pyStrip content)).any (fun l => pyStartswith (pyStrip l) "rsync ")

/-- The result-summary footer `_add_result_check_to_script` appends. -/
def result_check : String :=
  "\n# === FailLog Retry Results ===\n" ++
  "echo \"=== FailLog Retry Summary ===\"\n" ++
  "echo \"Total retry attempts: $RETRY_COUNT\"\n" ++
  "echo \"Failed attempts: $FAILED_COUNT\"\n" ++
  "echo \"Successful attempts: $((RETRY_COUNT - FAILED_COUNT))\"\n" ++
  "\n" ++
  "if [ $FAILED_COUNT -eq 0 ]; then\n" ++
  "    echo \"All retries successful - clearing failLog\"\n" ++
  "    exit 0\n" ++
  "else\n" ++
  "    echo \"Some retries failed - will regenerate script with only failed commands\"\n" ++
  "    exit 1\n" ++
  "fi\n"

/-- `FailLogExecutor._add_result_check_to_script`: append the footer to the
rstripped content unless the (trailing-space) marker is already present. -/
def add_result_check (content : String) : String :=
  if containsSubstr content "echo \"=== FailLog Retry Summary ===\" " then content
  else pyRstrip content ++ result_check

/-- One line of `_parse_failed_commands_from_output`'s line-oriented state
machine: `Retrying:` records the candidate command, `FAILED:` (with a
truthy candidate) appends it once, `SUCCESS:` clears the candidate. -/
def parse_step (st : Option String × List String) (rawLine : String) :
    Option String × List String :=
  let line := pyStrip rawLine
  if pyStartswith line "Retrying: " then
    (some (pyReplace line "Retrying: "), st.2)
  else if pyStartswith line "FAILED: " && optTruthyStr st.1 then
    (none, if st.2.contains (st.1.getD "") then st.2 else st.2 ++ [st.1.getD ""])
  else if pyStartswith line "SUCCESS: " then
    (none, st.2)
  else st

/-- `FailLogExecutor._parse_failed_commands_from_output` (the commands of
the returned dictionaries). -/
def parse_failed_commands (output : String) : List String :=
  ((splitNl output).foldl parse_step (none, [])).2

/-- `FailLogExecutor._check_and_execute`: one executor tick as a function
of the ledger file content (`none` when missing) and of the two script
runs. -/
def check_and_execute (exec1 exec2 : String → Bool × String) :
    Option String → Option String
  | none => none
  | some content =>
    if content.utf8ByteSize ≤ 12 then some content
    else if !(has_rsync_commands content) then some content
    else
      let content2 := add_result_check content
      if (exec1 content2).1 then some clear_script_content
      else if (exec2 content2).1 then some clear_script_content
      else
        let failed := parse_failed_commands (exec2 content2).2
        if failed.isEmpty then some content2
        else some (generate_script_with_commands failed)

/-! ### The modelled bash run of a well-formed ledger -/

/-- The stdout echoes of the per-command blocks when bash runs a ledger
holding `cmds`, command `c` exiting successfully iff `runCmd c`. -/
def script_echo_lines (runCmd : String → Bool) : List String → List String
  | [] => []
  | c :: cs =>
    ("Retrying: " ++ c)
      :: (if runCmd c then "SUCCESS: " ++ c else "FAILED: " ++ c ++ " (exit code: 1)")
      :: script_echo_lines runCmd cs

/-- The stdout of the appended result-summary footer. -/
def summary_lines (total failedCount : Nat) : List String :=
  ["=== FailLog Retry Summary ===",
   "Total retry attempts: " ++ natRepr total,
   "Failed attempts: " ++ natRepr failedCount,
   "Successful attempts: " ++ natRepr (total - failedCount),
   if failedCount = 0 then "All retries successful - clearing failLog"
   else "Some retries failed - will regenerate script with only failed commands"]

/-- The full modelled stdout of one bash run of a well-formed ledger. -/
def script_output (runCmd : String → Bool) (cmds : List String) : String :=
  joinNl (script_echo_lines runCmd cmds
    ++ summary_lines cmds.length (cmds.countP (fun c => !(runCmd c))))

/-- The modelled exit flag of the run: 0 exactly when no command failed. -/
def script_success (runCmd : String → Bool) (cmds : List String) : Bool :=
  cmds.all runCmd

/-- Observer: the rsync command lines a ledger holds (the lines of
`_has_rsync_commands` / `_count_rsync_commands_in_content`). -/
def rsync_commands (content : String) : List String :=
  (splitNl content).filter (fun l => pyStartswith (pyStrip l) "rsync ")

/-- Well-formedness of a recorded rsync command line: single line, no
surrounding whitespace, starts with `rsync `, and does not itself contain
the `Retrying: ` marker. -/
structure WfCmd (c : String) : Prop where
  no_nl : ('\n' : Char) ∉ c.data
  front_clean : c.data.dropWhile Char.isWhitespace = c.data
  back_clean : c.data.reverse.dropWhile Char.isWhitespace = c.data.reverse
  rsync_head : pyStartswith c "rsync " = true
  no_retry_marker : listIsInfix ("Retrying: ".data) c.data = false

/-- The accumulator discipline of the parser's dedup (`failed_cmd not in
[...]` before appending). -/
def dedup_append (acc : List String) (xs : List String) : List String :=
  xs.foldl (fun a c => if a.contains c then a else a ++ [c]) acc

/-! ### Helper lemmas for the executor proofs -/

theorem isPrefixOf_append_self (a b : List Char) : a.isPrefixOf (a ++ b) = true := by
  induction a with
  | nil => simp [List.isPrefixOf]
  | cons x xs ih => simp [List.isPrefixOf, ih]

theorem digitChar_props (d : Nat) (h : d < 10) :
    (digitChar d).isWhitespace = false ∧ digitChar d ≠ '\n' := by
  interval_cases d <;> exact ⟨by decide, by decide⟩

theorem natReprAux_props :
    ∀ fuel n, ∀ c ∈ natReprAux fuel n, c.isWhitespace = false ∧ c ≠ '\n' := by
  intro fuel
  induction fuel with
  | zero => intro n c hc; simp [natReprAux] at hc
  | succ f ih =>
    intro n c hc
    rw [natReprAux] at hc
    by_cases hn : n < 10
    · rw [if_pos hn] at hc
      simp only [List.mem_singleton] at hc
      subst hc
      exact digitChar_props n hn
    · rw [if_neg hn] at hc
      rcases List.mem_append.mp hc with h | h
      · exact ih (n / 10) c h
      · simp only [List.mem_singleton] at h
        subst h
        exact digitChar_props (n % 10) (Nat.mod_lt _ (by norm_num))

theorem natRepr_ne_nil (n : Nat) : (natRepr n).data ≠ [] := by
  show natReprAux (n + 1) n ≠ []
  rw [natReprAux]
  by_cases hn : n < 10
  · simp [hn]
  · simp [hn]

theorem natRepr_no_nl (n : Nat) : ('\n' : Char) ∉ (natRepr n).data :=
  fun h => (natReprAux_props _ _ _ h).2 rfl

theorem natRepr_back_clean (n : Nat) :
    (natRepr n).data.reverse.dropWhile Char.isWhitespace = (natRepr n).data.reverse :=
  dropWhile_eq_self_of_all _ _
    (fun c hc => (natReprAux_props _ _ c (List.mem_reverse.mp hc)).1)

theorem optTruthyStr_of_ne_nil (c : String) (h : c.data ≠ []) :
    optTruthyStr (some c) = true := by
  show (!c.isEmpty) = true
  have hf : c.isEmpty = false := by
    cases he : c.isEmpty
    · rfl
    · exact absurd (congrArg String.data ((String.isEmpty_iff c).mp he)) (by simpa using h)
  simp [hf]

theorem wf_data_ne_nil (c : String) (h : WfCmd c) : c.data ≠ [] := by
  intro he
  have hr := h.rsync_head
  rw [pyStartswith, he] at hr
  exact absurd hr (by decide)

theorem wf_strip (c : String) (h : WfCmd c) : pyStrip c = c := by
  show String.mk (stripChars c.data) = c
  rw [stripChars_eq_self c.data h.front_clean h.back_clean]

theorem pyStrip_append_clean (a b : String)
    (ha : a.data.dropWhile Char.isWhitespace = a.data) (hane : a.data ≠ [])
    (hb : b.data.reverse.dropWhile Char.isWhitespace = b.data.reverse)
    (hbne : b.data ≠ []) :
    pyStrip (a ++ b) = a ++ b := by
  show String.mk (stripChars (a ++ b).data) = a ++ b
  rw [String.data_append, strip_append_clean a.data b.data ha hane hb hbne,
    ← String.data_append]

theorem listIsInfix_cons_false (pat : List Char) (c : Char) (cs : List Char)
    (h : listIsInfix pat (c :: cs) = false) :
    pat.isPrefixOf (c :: cs) = false ∧ listIsInfix pat cs = false := by
  rw [listIsInfix] at h
  cases hp : pat.isPrefixOf (c :: cs) <;> cases hi : listIsInfix pat cs <;> simp_all

theorem replAllChars_no_infix (pat : List Char) (cs : List Char)
    (h : listIsInfix pat cs = false) : replAllChars pat cs = cs := by
  induction cs with
  | nil => rw [replAllChars]
  | cons c cs ih =>
    obtain ⟨h1, h2⟩ := listIsInfix_cons_false pat c cs h
    rw [replAllChars, dif_neg (fun hc => absurd hc.2 (by simp [h1]))]
    rw [ih h2]

theorem replAllChars_prefix_drop (pat rest : List Char) (hne : pat ≠ []) :
    replAllChars pat (pat ++ rest) = replAllChars pat rest := by
  match pat, hne with
  | p :: ps, _ =>
    rw [List.cons_append, replAllChars,
      dif_pos ⟨by simp, by rw [← List.cons_append]; exact isPrefixOf_append_self (p :: ps) rest⟩]
    congr 1
    rw [List.length_cons, List.drop_succ_cons, List.drop_left]

theorem pyReplace_marker (c : String) (h : WfCmd c) :
    pyReplace ("Retrying: " ++ c) "Retrying: " = c := by
  show String.mk (replAllChars ("Retrying: " : String).data ("Retrying: " ++ c).data) = c
  rw [String.data_append, replAllChars_prefix_drop _ _ (by decide),
    replAllChars_no_infix _ _ h.no_retry_marker]

theorem rsync_pred_false_head (line : String) (x : Char)
    (hx : (line.data.dropWhile Char.isWhitespace).head? = some x)
    (hne : (('r' : Char) == x) = false) :
    pyStartswith (pyStrip line) "rsync " = false := by
  show List.isPrefixOf ("rsync " : String).data (stripChars line.data) = false
  have hh := stripChars_head line.data
  rw [hx] at hh
  rcases hs : stripChars line.data with _ | ⟨y, t⟩
  · rw [hs] at hh
    simp at hh
  · rw [hs] at hh
    simp only [List.head?_cons, Option.some.injEq] at hh
    subst hh
    show List.isPrefixOf ('r' :: ("sync " : String).data) (y :: t) = false
    simp [List.isPrefixOf, hne]

theorem rsync_pred_false_empty (line : String)
    (hx : (line.data.dropWhile Char.isWhitespace).head? = none) :
    pyStartswith (pyStrip line) "rsync " = false := by
  show List.isPrefixOf ("rsync " : String).data (stripChars line.data) = false
  have hh := stripChars_head line.data
  rw [hx] at hh
  rcases hs : stripChars line.data with _ | ⟨y, t⟩
  · decide
  · rw [hs] at hh
    simp at hh

theorem rsync_pred_true_cmd (c : String) (h : WfCmd c) :
    pyStartswith (pyStrip c) "rsync " = true := by
  rw [wf_strip c h]
  exact h.rsync_head

theorem no_nl_append2 (a b : String) (ha : ('\n' : Char) ∉ a.data)
    (hb : ('\n' : Char) ∉ b.data) : ('\n' : Char) ∉ (a ++ b).data := by
  rw [String.data_append]
  intro h
  rcases List.mem_append.mp h with h | h
  · exact ha h
  · exact hb h

theorem retry_block_filter (i : Nat) (c : String) (h : WfCmd c) :
    (retry_block_lines i c).filter (fun l => pyStartswith (pyStrip l) "rsync ") = [c] := by
  have p1 : pyStartswith (pyStrip ("# Retry command " ++ natRepr i ++ " (previously failed)"))
      "rsync " = false := rsync_pred_false_head _ '#' rfl rfl
  have p2 : pyStartswith (pyStrip ("echo 'Retrying: " ++ c ++ "'")) "rsync " = false :=
    rsync_pred_false_head _ 'e' rfl rfl
  have p3 := rsync_pred_true_cmd c h
  have p4 : pyStartswith (pyStrip "RETRY_RESULT=$?") "rsync " = false := by decide
  have p5 : pyStartswith (pyStrip "if [ $RETRY_RESULT -eq 0 ]; then") "rsync " = false := by
    decide
  have p6 : pyStartswith (pyStrip ("    echo 'SUCCESS: " ++ c ++ "'")) "rsync " = false :=
    rsync_pred_false_head _ 'e' rfl rfl
  have p7 : pyStartswith (pyStrip "else") "rsync " = false := by decide
  have p8 : pyStartswith
      (pyStrip ("    echo 'FAILED: " ++ c ++ " (exit code: '$RETRY_RESULT')'")) "rsync "
      = false := rsync_pred_false_head _ 'e' rfl rfl
  have p9 : pyStartswith (pyStrip "    FAILED_COUNT=$((FAILED_COUNT + 1))") "rsync "
      = false := by decide
  have p10 : pyStartswith (pyStrip "fi") "rsync " = false := by decide
  have p11 : pyStartswith (pyStrip "RETRY_COUNT=$((RETRY_COUNT + 1))") "rsync " = false := by
    decide
  have p12 : pyStartswith (pyStrip "") "rsync " = false := by decide
  simp only [retry_block_lines, List.filter_cons, List.filter_nil,
    p1, p2, p3, p4, p5, p6, p7, p8, p9, p10, p11, p12, Bool.false_eq_true, if_false, if_true]

theorem numbered_blocks_filter (cmds : List String) (i : Nat) (h : ∀ c ∈ cmds, WfCmd c) :
    (numbered_blocks i cmds).filter (fun l => pyStartswith (pyStrip l) "rsync ") = cmds := by
  induction cmds generalizing i with
  | nil => rfl
  | cons c cs ih =>
    rw [numbered_blocks, List.filter_append, retry_block_filter i c (h c (List.mem_cons_self _ _)),
      ih (i + 1) (fun x hx => h x (List.mem_cons_of_mem _ hx))]
    rfl

theorem retry_block_no_nl (i : Nat) (c : String) (h : WfCmd c) :
    ∀ l ∈ retry_block_lines i c, ('\n' : Char) ∉ l.data := by
  intro l hl
  simp only [retry_block_lines, List.mem_cons, List.not_mem_nil, or_false] at hl
  rcases hl with h1|h1|h1|h1|h1|h1|h1|h1|h1|h1|h1|h1 <;> subst h1
  · exact no_nl_append2 _ _ (no_nl_append2 _ _ (by decide) (natRepr_no_nl i)) (by decide)
  · exact no_nl_append2 _ _ (no_nl_append2 _ _ (by decide) h.no_nl) (by decide)
  · exact h.no_nl
  · decide
  · decide
  · exact no_nl_append2 _ _ (no_nl_append2 _ _ (by decide) h.no_nl) (by decide)
  · decide
  · exact no_nl_append2 _ _ (no_nl_append2 _ _ (by decide) h.no_nl) (by decide)
  · decide
  · decide
  · decide
  · decide

theorem numbered_blocks_no_nl (cmds : List String) (i : Nat) (h : ∀ c ∈ cmds, WfCmd c) :
    ∀ l ∈ numbered_blocks i cmds, ('\n' : Char) ∉ l.data := by
  induction cmds generalizing i with
  | nil => intro l hl; simp [numbered_blocks] at hl
  | cons c cs ih =>
    intro l hl
    rw [numbered_blocks] at hl
    rcases List.mem_append.mp hl with hm | hm
    · exact retry_block_no_nl i c (h c (List.mem_cons_self _ _)) l hm
    · exact ih (i + 1) (fun x hx => h x (List.mem_cons_of_mem _ hx)) l hm

theorem rsync_commands_generate (cmds : List String) (h : ∀ c ∈ cmds, WfCmd c) :
    rsync_commands (generate_script_with_commands cmds) = cmds := by
  unfold rsync_commands generate_script_with_commands
  rw [splitNl_joinNl _ (by simp) ?nonl]
  case nonl =>
    intro l hl
    rcases List.mem_append.mp hl with hm | hm
    · fin_cases hm <;> decide
    · exact numbered_blocks_no_nl cmds 1 h l hm
  rw [List.filter_append, numbered_blocks_filter cmds 1 h]
  have hhdr : (["#!/bin/bash",
      "# FailLog retry script - generated by sersync (incremental cleanup)",
      "RETRY_COUNT=0", "FAILED_COUNT=0", ""] : List String).filter
      (fun l => pyStartswith (pyStrip l) "rsync ") = [] := by decide
  rw [hhdr]
  rfl

theorem parse_step_retrying (st : Option String × List String) (c : String) (h : WfCmd c) :
    parse_step st ("Retrying: " ++ c) = (some c, st.2) := by
  have hstrip : pyStrip ("Retrying: " ++ c) = "Retrying: " ++ c :=
    pyStrip_append_clean "Retrying: " c (by decide) (by decide)
      h.back_clean (wf_data_ne_nil c h)
  have h1 : pyStartswith ("Retrying: " ++ c) "Retrying: " = true := by
    show List.isPrefixOf _ _ = true
    rw [String.data_append]
    exact isPrefixOf_append_self _ _
  simp only [parse_step, hstrip, h1, if_true]
  rw [pyReplace_marker c h]

theorem parse_step_success (st : Option String × List String) (c : String) (h : WfCmd c) :
    parse_step st ("SUCCESS: " ++ c) = (none, st.2) := by
  have hstrip : pyStrip ("SUCCESS: " ++ c) = "SUCCESS: " ++ c :=
    pyStrip_append_clean "SUCCESS: " c (by decide) (by decide)
      h.back_clean (wf_data_ne_nil c h)
  have h1 : pyStartswith ("SUCCESS: " ++ c) "Retrying: " = false := by
    show List.isPrefixOf _ _ = false
    rw [String.data_append]
    rfl
  have h2 : pyStartswith ("SUCCESS: " ++ c) "FAILED: " = false := by
    show List.isPrefixOf _ _ = false
    rw [String.data_append]
    rfl
  have h3 : pyStartswith ("SUCCESS: " ++ c) "SUCCESS: " = true := by
    show List.isPrefixOf _ _ = true
    rw [String.data_append]
    exact isPrefixOf_append_self _ _
  simp only [parse_step, hstrip, h1, h2, h3, Bool.false_and, Bool.false_eq_true, if_false,
    if_true]

theorem parse_step_failed (acc : List String) (c : String) (h : WfCmd c) :
    parse_step (some c, acc) ("FAILED: " ++ c ++ " (exit code: 1)")
      = (none, if acc.contains c then acc else acc ++ [c]) := by
  have hfront : (("FAILED: " ++ c) : String).data.dropWhile Char.isWhitespace
      = (("FAILED: " ++ c) : String).data := by
    rw [String.data_append]
    rfl
  have hane : (("FAILED: " ++ c) : String).data ≠ [] := by
    rw [String.data_append]
    simp
  have hstrip : pyStrip (("FAILED: " ++ c) ++ " (exit code: 1)")
      = ("FAILED: " ++ c) ++ " (exit code: 1)" :=
    pyStrip_append_clean ("FAILED: " ++ c) " (exit code: 1)" hfront hane (by decide) (by decide)
  have h1 : pyStartswith (("FAILED: " ++ c) ++ " (exit code: 1)") "Retrying: " = false := by
    show List.isPrefixOf _ _ = false
    rw [String.data_append, String.data_append]
    rfl
  have h2 : pyStartswith (("FAILED: " ++ c) ++ " (exit code: 1)") "FAILED: " = true := by
    show List.isPrefixOf _ _ = true
    rw [String.data_append, String.data_append, List.append_assoc]
    exact isPrefixOf_append_self _ _
  have h3 : optTruthyStr (some c) = true := optTruthyStr_of_ne_nil c (wf_data_ne_nil c h)
  simp only [parse_step, hstrip, h1, Bool.false_eq_true, if_false, h2, h3, Bool.and_self,
    Bool.true_and, if_true, Option.getD_some]

theorem parse_step_none_state (acc : List String) (line : String)
    (hR : pyStartswith (pyStrip line) "Retrying: " = false)
    (hS : pyStartswith (pyStrip line) "SUCCESS: " = false) :
    parse_step (none, acc) line = (none, acc) := by
  simp only [parse_step, hR, Bool.false_eq_true, if_false, optTruthyStr, Bool.and_false,
    hS]

theorem parse_fold_summary (t f : Nat) (acc : List String) :
    (summary_lines t f).foldl parse_step (none, acc) = (none, acc) := by
  have hs2 : pyStrip ("Total retry attempts: " ++ natRepr t)
      = "Total retry attempts: " ++ natRepr t :=
    pyStrip_append_clean _ _ (by decide) (by decide) (natRepr_back_clean t) (natRepr_ne_nil t)
  have hs3 : pyStrip ("Failed attempts: " ++ natRepr f) = "Failed attempts: " ++ natRepr f :=
    pyStrip_append_clean _ _ (by decide) (by decide) (natRepr_back_clean f) (natRepr_ne_nil f)
  have hs4 : pyStrip ("Successful attempts: " ++ natRepr (t - f))
      = "Successful attempts: " ++ natRepr (t - f) :=
    pyStrip_append_clean _ _ (by decide) (by decide) (natRepr_back_clean (t - f))
      (natRepr_ne_nil (t - f))
  have p1 := parse_step_none_state acc "=== FailLog Retry Summary ===" (by decide) (by decide)
  have p2 := parse_step_none_state acc ("Total retry attempts: " ++ natRepr t)
    (by rw [hs2]; show List.isPrefixOf _ _ = false; rw [String.data_append]; rfl)
    (by rw [hs2]; show List.isPrefixOf _ _ = false; rw [String.data_append]; rfl)
  have p3 := parse_step_none_state acc ("Failed attempts: " ++ natRepr f)
    (by rw [hs3]; show List.isPrefixOf _ _ = false; rw [String.data_append]; rfl)
    (by rw [hs3]; show List.isPrefixOf _ _ = false; rw [String.data_append]; rfl)
  have p4 := parse_step_none_state acc ("Successful attempts: " ++ natRepr (t - f))
    (by rw [hs4]; show List.isPrefixOf _ _ = false; rw [String.data_append]; rfl)
    (by rw [hs4]; show List.isPrefixOf _ _ = false; rw [String.data_append]; rfl)
  by_cases hf : f = 0
  · subst hf
    have p5 := parse_step_none_state acc "All retries successful - clearing failLog"
      (by decide) (by decide)
    simp only [summary_lines, List.foldl_cons, p1, p2, p3, p4, List.foldl_nil]
    rw [if_pos trivial]
    exact p5
  · have p5 := parse_step_none_state acc
      "Some retries failed - will regenerate script with only failed commands"
      (by decide) (by decide)
    simp only [summary_lines, if_neg hf, List.foldl_cons, p1, p2, p3, p4, p5, List.foldl_nil]

theorem parse_fold_echo (runCmd : String → Bool) (cmds : List String) (rest : List String)
    (acc : List String) (h : ∀ c ∈ cmds, WfCmd c) :
    (script_echo_lines runCmd cmds ++ rest).foldl parse_step (none, acc)
      = rest.foldl parse_step
          (none, dedup_append acc (cmds.filter (fun c => !(runCmd c)))) := by
  induction cmds generalizing acc with
  | nil => simp [script_echo_lines, dedup_append]
  | cons c cs ih =>
    have hwf := h c (List.mem_cons_self _ _)
    rw [script_echo_lines]
    simp only [List.cons_append, List.foldl_cons]
    rw [parse_step_retrying (none, acc) c hwf]
    by_cases hr : runCmd c
    · rw [if_pos hr, parse_step_success (some c, acc) c hwf]
      rw [ih acc (fun x hx => h x (List.mem_cons_of_mem _ hx))]
      simp only [List.filter_cons, hr, Bool.not_true, Bool.false_eq_true, if_false]
    · rw [if_neg hr, parse_step_failed acc c hwf]
      rw [ih _ (fun x hx => h x (List.mem_cons_of_mem _ hx))]
      have hfc : (cs.filter (fun x => !(runCmd x))) =
          ((c :: cs).filter (fun x => !(runCmd x))).tail := by
        simp [List.filter_cons, Bool.eq_false_iff.mpr hr]
      simp only [List.filter_cons, Bool.eq_false_iff.mpr hr, Bool.not_false, if_true]
      rfl

theorem script_echo_no_nl (runCmd : String → Bool) (cmds : List String)
    (h : ∀ c ∈ cmds, WfCmd c) :
    ∀ l ∈ script_echo_lines runCmd cmds, ('\n' : Char) ∉ l.data := by
  induction cmds with
  | nil => intro l hl; simp [script_echo_lines] at hl
  | cons c cs ih =>
    intro l hl
    have hwf := h c (List.mem_cons_self _ _)
    rw [script_echo_lines] at hl
    rcases List.mem_cons.mp hl with h1 | h1
    · subst h1
      exact no_nl_append2 _ _ (by decide) hwf.no_nl
    · rcases List.mem_cons.mp h1 with h2 | h2
      · subst h2
        by_cases hr : runCmd c
        · rw [if_pos hr]
          exact no_nl_append2 _ _ (by decide) hwf.no_nl
        · rw [if_neg hr]
          exact no_nl_append2 _ _ (no_nl_append2 _ _ (by decide) hwf.no_nl) (by decide)
      · exact ih (fun x hx => h x (List.mem_cons_of_mem _ hx)) l h2

theorem summary_no_nl (t f : Nat) :
    ∀ l ∈ summary_lines t f, ('\n' : Char) ∉ l.data := by
  intro l hl
  simp only [summary_lines, List.mem_cons, List.not_mem_nil, or_false] at hl
  rcases hl with h1|h1|h1|h1|h1 <;> subst h1
  · decide
  · exact no_nl_append2 _ _ (by decide) (natRepr_no_nl t)
  · exact no_nl_append2 _ _ (by decide) (natRepr_no_nl f)
  · exact no_nl_append2 _ _ (by decide) (natRepr_no_nl (t - f))
  · by_cases hf : f = 0
    · rw [if_pos hf]; decide
    · rw [if_neg hf]; decide

theorem parse_script_output (runCmd : String → Bool) (cmds : List String)
    (h : ∀ c ∈ cmds, WfCmd c) :
    parse_failed_commands (script_output runCmd cmds)
      = dedup_append [] (cmds.filter (fun c => !(runCmd c))) := by
  unfold parse_failed_commands script_output
  rw [splitNl_joinNl _ (by simp [summary_lines]) ?nonl]
  case nonl =>
    intro l hl
    rcases List.mem_append.mp hl with hm | hm
    · exact script_echo_no_nl runCmd cmds h l hm
    · exact summary_no_nl _ _ l hm
  rw [parse_fold_echo runCmd cmds _ [] h, parse_fold_summary]

theorem dedup_append_cons (acc : List String) (c : String) (l : List String) :
    dedup_append acc (c :: l)
      = dedup_append (if acc.contains c then acc else acc ++ [c]) l := rfl

theorem dedup_append_eq (l : List String) (acc : List String) (hnd : l.Nodup)
    (hdisj : ∀ x ∈ l, x ∉ acc) :
    dedup_append acc l = acc ++ l := by
  induction l generalizing acc with
  | nil => simp [dedup_append]
  | cons c cs ih =>
    have hc : acc.contains c = false := by
      cases hcc : acc.contains c
      · rfl
      · exact absurd (List.elem_iff.mp hcc) (hdisj c (List.mem_cons_self _ _))
    rw [dedup_append_cons]
    simp only [hc, Bool.false_eq_true, if_false]
    rw [ih (acc ++ [c]) (List.Nodup.of_cons hnd) ?disj]
    · simp
    case disj =>
      intro x hx hxm
      rcases List.mem_append.mp hxm with hm | hm
      · exact hdisj x (List.mem_cons_of_mem _ hx) hm
      · simp only [List.mem_singleton] at hm
        subst hm
        exact (List.nodup_cons.mp hnd).1 hx

theorem mem_dedup_append (l : List String) (acc : List String) (x : String) :
    x ∈ dedup_append acc l ↔ x ∈ acc ∨ x ∈ l := by
  induction l generalizing acc with
  | nil => simp [dedup_append]
  | cons c cs ih =>
    rw [dedup_append_cons]
    by_cases hc : acc.contains c
    · simp only [hc, if_true]
      rw [ih]
      have hcm : c ∈ acc := List.elem_iff.mp hc
      constructor
      · rintro (hm | hm)
        · exact Or.inl hm
        · exact Or.inr (List.mem_cons_of_mem _ hm)
      · rintro (hm | hm)
        · exact Or.inl hm
        · rcases List.mem_cons.mp hm with hm2 | hm2
          · subst hm2; exact Or.inl hcm
          · exact Or.inr hm2
    · simp only [hc, Bool.false_eq_true, if_false]
      rw [ih]
      simp only [List.mem_append, List.mem_singleton, List.mem_cons]
      tauto

/-- C5: one executor tick on the failure ledger.  (i) A missing file
changes nothing; (ii) so does a file with no rsync command line; (iii) if
every recorded command succeeds on retry the ledger is emptied back to its
header; (iv) if every recorded command fails again the regenerated ledger
carries exactly the same rsync commands wrapped in fresh counter
scaffolding; (v) a command reported by a SUCCESS line is never among the
parsed still-failing commands; (vi) if no FAILED line can be parsed from
the failing run's output, the ledger body is preserved (only the appended
footer is new).  The two bash runs are the explicit parameters `e1`, `e2`,
instantiated with the modelled output of the ledger's commands. -/
theorem faillog_tick_spec :
    (∀ e1 e2, check_and_execute e1 e2 none = none)
    ∧ (∀ e1 e2 content, has_rsync_commands content = false →
        check_and_execute e1 e2 (some content) = some content)
    ∧ (∀ e1 e2 L runCmd cmds,
        12 < L.utf8ByteSize → has_rsync_commands L = true →
        e1 (add_result_check L) = (script_success runCmd cmds, script_output runCmd cmds) →
        (∀ c ∈ cmds, runCmd c = true) →
        check_and_execute e1 e2 (some L) = some clear_script_content)
    ∧ (∀ e1 e2 L runCmd cmds,
        12 < L.utf8ByteSize → has_rsync_commands L = true →
        (∀ c ∈ cmds, WfCmd c) → cmds ≠ [] → cmds.Nodup →
        rsync_commands L = cmds →
        e1 (add_result_check L) = (script_success runCmd cmds, script_output runCmd cmds) →
        e2 (add_result_check L) = (script_success runCmd cmds, script_output runCmd cmds) →
        (∀ c ∈ cmds, runCmd c = false) →
        check_and_execute e1 e2 (some L) = some (generate_script_with_commands cmds)
          ∧ rsync_commands (generate_script_with_commands cmds) = cmds)
    ∧ (∀ runCmd cmds c, (∀ x ∈ cmds, WfCmd x) → c ∈ cmds → runCmd c = true →
        c ∉ parse_failed_commands (script_output runCmd cmds))
    ∧ (∀ e1 e2 L out2,
        12 < L.utf8ByteSize → has_rsync_commands L = true →
        (e1 (add_result_check L)).1 = false →
        e2 (add_result_check L) = (false, out2) →
        parse_failed_commands out2 = [] →
        check_and_execute e1 e2 (some L) = some (add_result_check L)) := by
  refine ⟨fun e1 e2 => rfl, ?_, ?_, ?_, ?_, ?_⟩
  · intro e1 e2 content hno
    by_cases hsz : content.utf8ByteSize ≤ 12
    · simp only [check_and_execute, if_pos hsz]
    · simp only [check_and_execute, if_neg hsz, hno, Bool.not_false, if_true]
  · intro e1 e2 L runCmd cmds hsz hrs he1 hall
    have hsz2 : ¬ (L.utf8ByteSize ≤ 12) := by omega
    have hallt : cmds.all runCmd = true := List.all_eq_true.mpr hall
    simp only [check_and_execute, if_neg hsz2, hrs, Bool.not_true, Bool.false_eq_true,
      if_false, he1, script_success, hallt, if_true]
  · intro e1 e2 L runCmd cmds hsz hrs hwfs hne hnd hLcmds he1 he2 hfail
    have hsz2 : ¬ (L.utf8ByteSize ≤ 12) := by omega
    have hallf : cmds.all runCmd = false := by
      match cmds, hne with
      | c :: cs, _ =>
        rw [List.all_cons, hfail c (List.mem_cons_self _ _)]
        rfl
    have hparse : parse_failed_commands (script_output runCmd cmds) = cmds := by
      rw [parse_script_output runCmd cmds hwfs]
      have hfilt : cmds.filter (fun c => !(runCmd c)) = cmds :=
        List.filter_eq_self.mpr (fun c hc => by rw [hfail c hc]; rfl)
      rw [hfilt, dedup_append_eq cmds [] hnd (by simp)]
      simp
    refine ⟨?_, rsync_commands_generate cmds hwfs⟩
    have hemp : cmds.isEmpty = false := by
      match cmds, hne with
      | c :: cs, _ => rfl
    simp only [check_and_execute, if_neg hsz2, hrs, Bool.not_true, Bool.false_eq_true,
      if_false, he1, he2, script_success, hallf, hparse, hemp, if_false]
  · intro runCmd cmds c hwfs hc hr hmem
    rw [parse_script_output runCmd cmds hwfs] at hmem
    rcases (mem_dedup_append _ [] c).mp hmem with hm | hm
    · exact List.not_mem_nil c hm
    · have := (List.mem_filter.mp hm).2
      rw [hr] at this
      exact absurd this (by decide)
  · intro e1 e2 L out2 hsz hrs h1 he2 hp
    have hsz2 : ¬ (L.utf8ByteSize ≤ 12) := by omega
    simp only [check_and_execute, if_neg hsz2, hrs, Bool.not_true, Bool.false_eq_true,
      if_false, h1, he2, hp, List.isEmpty_nil, if_true]

/-- C5 witness: the tick specification applied to the concrete one-command
ledger regenerated by the executor, with a run in which the command fails
again: the tick rewrites the ledger to the same single command in fresh
scaffolding. -/
theorem faillog_tick_spec_witness :
    check_and_execute
        (fun _ => (script_success (fun _ => false) ["rsync -artuz /w/a.txt 10.0.0.2::data/a.txt"],
          script_output (fun _ => false) ["rsync -artuz /w/a.txt 10.0.0.2::data/a.txt"]))
        (fun _ => (script_success (fun _ => false) ["rsync -artuz /w/a.txt 10.0.0.2::data/a.txt"],
          script_output (fun _ => false) ["rsync -artuz /w/a.txt 10.0.0.2::data/a.txt"]))
        (some (generate_script_with_commands ["rsync -artuz /w/a.txt 10.0.0.2::data/a.txt"]))
      = some (generate_script_with_commands ["rsync -artuz /w/a.txt 10.0.0.2::data/a.txt"])
    ∧ rsync_commands (generate_script_with_commands
        ["rsync -artuz /w/a.txt 10.0.0.2::data/a.txt"])
      = ["rsync -artuz /w/a.txt 10.0.0.2::data/a.txt"] :=
  faillog_tick_spec.2.2.2.1
    (fun _ => (script_success (fun _ => false) ["rsync -artuz /w/a.txt 10.0.0.2::data/a.txt"],
      script_output (fun _ => false) ["rsync -artuz /w/a.txt 10.0.0.2::data/a.txt"]))
    (fun _ => (script_success (fun _ => false) ["rsync -artuz /w/a.txt 10.0.0.2::data/a.txt"],
      script_output (fun _ => false) ["rsync -artuz /w/a.txt 10.0.0.2::data/a.txt"]))
    (generate_script_with_commands ["rsync -artuz /w/a.txt 10.0.0.2::data/a.txt"])
    (fun _ => false) ["rsync -artuz /w/a.txt 10.0.0.2::data/a.txt"]
    (by decide) (by decide)
    (by
      intro c hc
      simp only [List.mem_singleton] at hc
      subst hc
      exact ⟨by decide, by decide, by decide, by decide, by decide⟩)
    (by decide) (by decide)
    (rsync_commands_generate ["rsync -artuz /w/a.txt 10.0.0.2::data/a.txt"]
      (by
        intro c hc
        simp only [List.mem_singleton] at hc
        subst hc
        exact ⟨by decide, by decide, by decide, by decide, by decide⟩))
    rfl rfl (fun c hc => rfl)

end Sersync
